import Mathlib

set_option maxHeartbeats 1000000
set_option maxRecDepth 8000

/-!
Shallow embedding of the Galaxy → Zoho synchronization job
(`src/index.js` / `src/unnamed/part_012` and the modules it calls).

Conventions of the embedding:
* JS objects that may lack a field are modelled with `Option` fields;
  `none` stands for a missing, `null`, or non-numeric (`NaN`) value.
* JS `Map` objects are modelled as association lists (`List (κ × ν)`):
  `jsGet` returns the first binding, `jsSet` replaces a binding in place
  (preserving insertion order) or appends a fresh one — the observable
  semantics of `Map.get` / `Map.set` / `Map.values` / `Map.entries`.
* Network transports are oracles: a function from the call index to the
  response (or to a thrown error, as `Except.error`).  Everything else is
  translated directly from the source.
* Timing (timeouts, the fixed 750 ms backoff) and log output are not
  modelled; retry *counts* are.
-/

namespace ErpSync

/-- JS `Map.get`: first binding for the key, if any. -/
def jsGet {κ ν : Type} [DecidableEq κ] : List (κ × ν) → κ → Option ν
  | [], _ => none
  | (k, v) :: rest, key => if k = key then some v else jsGet rest key

/-- JS `Map.set`: replace the binding in place, or append a fresh one. -/
def jsSet {κ ν : Type} [DecidableEq κ] : List (κ × ν) → κ → ν → List (κ × ν)
  | [], key, val => [(key, val)]
  | (k, v) :: rest, key, val =>
    if k = key then (key, val) :: rest else (k, v) :: jsSet rest key val

/-- Fold `jsSet` over a list of bindings (insertion in list order). -/
def jsSetAll {κ ν : Type} [DecidableEq κ] (m : List (κ × ν)) (ps : List (κ × ν)) :
    List (κ × ν) :=
  ps.foldl (fun acc p => jsSet acc p.1 p.2) m

/-- JS `String.prototype.toUpperCase`, embedded character-wise (ASCII-faithful). -/
def jsToUpper (s : String) : String :=
  String.mk (s.toList.map Char.toUpper)

/-- JS `String.prototype.trim`: strip leading and trailing whitespace. -/
def jsTrim (s : String) : String :=
  String.mk (((s.toList.dropWhile Char.isWhitespace).reverse.dropWhile
    Char.isWhitespace).reverse)

/-- JS truthiness of a string-valued field: `undefined`/`null` and `""` are falsy. -/
def truthyStr : Option String → Bool
  | none => false
  | some s => s ≠ ""

/-- JS `Number(x) || 0` over our `Option Int` model of numeric fields
(`none` is a missing or non-numeric value, i.e. `NaN`, which `|| 0` turns into 0). -/
def numOr0 : Option Int → Int
  | none => 0
  | some n => n

/-- JS `a || b` over string-valued fields (`""` and `undefined` fall through). -/
def jsOr (a b : Option String) : Option String :=
  match a with
  | some s => if s = "" then b else some s
  | none => b

/-- `normStr` from `pushAccountsZoho.js`: `v == null ? undefined : String(v).trim()`. -/
def normStr (v : Option String) : Option String :=
  v.map jsTrim

/-- `normId` from `pushAccountsZoho.js`: trimmed, uppercased, `undefined` when empty. -/
def normId (v : Option String) : Option String :=
  match normStr v with
  | none => none
  | some s => if s = "" then none else some (jsToUpper s)

/-- `normDigits` from `pushAccountsZoho.js`: keep only digit characters, `undefined` when none. -/
def normDigits (v : Option String) : Option String :=
  match v with
  | none => none
  | some s =>
    let d := s.toList.filter Char.isDigit
    if d.isEmpty then none else some (String.mk d)

/-- Characters stripped by `normPhone` (the regex class `[.\-\s()]`). -/
def phoneStrip (c : Char) : Bool :=
  c = '.' || c = '-' || c.isWhitespace || c = '(' || c = ')'

/-- Digit run check for `normPhone`: all digits, length between 8 and 15. -/
def phoneDigitsOk (cs : List Char) : Bool :=
  cs.all Char.isDigit && decide (8 ≤ cs.length) && decide (cs.length ≤ 15)

/-- `normPhone` from `pushAccountsZoho.js`: strip `[.\-\s()]` then require
`/^\+?\d\x7b8,15\x7d$/`; returns `null` (modelled `none`) otherwise. -/
def normPhone (v : Option String) : Option String :=
  match v with
  | none => none
  | some s =>
    if s = "" then none
    else
      let t := (jsTrim s).toList.filter (fun c => ¬ phoneStrip c)
      let ok := match t with
        | '+' :: rest => phoneDigitsOk rest
        | rest => phoneDigitsOk rest
      if ok then some (String.mk t) else none

/-- A Galaxy customer row (`zh_Customers_fin` view), with exactly the fields
`mapGalaxyToZohoAccount` and the orchestrator read.  Numeric fields are
`Option Int` (`none` = missing / `NaN`). -/
structure GxRow where
  TRDRID : Option String := none
  TRDRNAME : Option String := none
  COMPTITLE : Option String := none
  CUSTCODE : Option String := none
  TRDRCODE : Option String := none
  TIN : Option String := none
  TRDSPHONE1 : Option String := none
  TRDSSTREET : Option String := none
  PREFDESCR : Option String := none
  CNTRCODE : Option String := none
  CAT_EPAGG : Option String := none
  CATEGDISCOUNT : Option String := none
  BALANCE : Option Int := none
  MAXBALANCE : Option Int := none
  WATT_CY : Option Int := none
  TURNOVER_YTD : Option Int := none
  TURNOVER_LTD : Option Int := none
  TURVOVER_LY : Option Int := none
  THIRDPARTYREVNUM : Option Int := none
  SALESNAME : Option String := none
  ZH_CUSTOMERS_MEMBER_CARDNO : Option String := none
deriving DecidableEq, Repr

/-- The Zoho Accounts upsert payload produced by `mapGalaxyToZohoAccount`
(without the `__GX_*` debug helpers, which the source deletes before send).
`Affiliate_To` is `none` when the payload carries no link field. -/
structure ZohoAccount where
  Trader_ID : Option String := none
  Account_Name : Option String := none
  Account_AFM : Option String := none
  Phone : Option String := none
  Billing_Street : Option String := none
  Shipping_Street : Option String := none
  Billing_State : Option String := none
  Shipping_State : Option String := none
  Billing_Country : Option String := none
  Shipping_Country : Option String := none
  Industry : Option String := none
  Account_Category : Option String := none
  Credit_Limit : Option Int := none
  Open_Balance : Option Int := none
  Watt : Option Int := none
  Turnover_YTD : Option Int := none
  Turnover_LTD : Option Int := none
  Turnover_LY : Option Int := none
  Rev_Number : Option Int := none
  SALESNAME : Option String := none
  Affiliate_To : Option String := none
deriving DecidableEq, Repr

/-- `mapGalaxyToZohoAccount` from `src/accounts/pushAccountsZoho.js`. -/
def mapGalaxyToZohoAccount (gx : GxRow) : ZohoAccount :=
  let name := jsOr (normStr gx.TRDRNAME)
    (jsOr (normStr gx.COMPTITLE) (jsOr (normStr gx.CUSTCODE) (normStr gx.TRDRCODE)))
  { Trader_ID := normId gx.TRDRID
    Account_Name := name
    Account_AFM := normDigits gx.TIN
    Phone := normPhone gx.TRDSPHONE1
    Billing_Street := normStr gx.TRDSSTREET
    Shipping_Street := normStr gx.TRDSSTREET
    Billing_State := normStr gx.PREFDESCR
    Shipping_State := normStr gx.PREFDESCR
    Billing_Country := normStr gx.CNTRCODE
    Shipping_Country := normStr gx.CNTRCODE
    Industry := normStr gx.CAT_EPAGG
    Account_Category := normStr gx.CATEGDISCOUNT
    Credit_Limit := gx.BALANCE
    Open_Balance := gx.MAXBALANCE
    Watt := gx.WATT_CY
    Turnover_YTD := gx.TURNOVER_YTD
    Turnover_LTD := gx.TURNOVER_LTD
    Turnover_LY := gx.TURVOVER_LY
    Rev_Number := gx.THIRDPARTYREVNUM
    SALESNAME := normStr gx.SALESNAME
    Affiliate_To := none }

/-- A Galaxy affiliate row (`ZH_AFFILIATE` view). -/
structure AffRow where
  AFFILIATES_TRDRID : Option String := none
  AFFILIATES_CUST_TRDRID : Option String := none
  AFF_NAME : Option String := none
  AFF_TIN : Option String := none
  AFFILIATES_REVNUM : Option Int := none
deriving DecidableEq, Repr

/-- The affiliate upsert payload produced by `mapAffToZohoAccount`
(`src/accounts/pushAffiliatesZoho.js`), without the stripped debug helper. -/
structure AffAccount where
  Trader_ID : Option String := none
  Account_Name : Option String := none
  Account_AFM : Option String := none
  Rev_Number : Option Int := none
deriving DecidableEq, Repr

/-- `mapAffToZohoAccount` from `src/accounts/pushAffiliatesZoho.js`. -/
def mapAffToZohoAccount (row : AffRow) : AffAccount :=
  { Trader_ID := normId row.AFFILIATES_TRDRID
    Account_Name := normStr row.AFF_NAME
    Account_AFM := normStr row.AFF_TIN
    Rev_Number := row.AFFILIATES_REVNUM }

/-! ### Filter grammar and request URLs (`src/utils/filters.js`, fetchers) -/

/-- `buildRawFilter` from `src/utils/filters.js`, numeric-value case
(`Number.isFinite(value)` holds, so the value is embedded unquoted). -/
def buildRawFilterNum (field : String) (value : Int) (op : String) : String :=
  "[\x7b" ++ field ++ ":[" ++ toString value ++ "," ++ op ++ "]\x7d]"

/-- `buildRawFilter`, string-value case (value is quoted). -/
def buildRawFilterStr (field : String) (value : String) (op : String) : String :=
  "[\x7b" ++ field ++ ":[\"" ++ value ++ "\"," ++ op ++ "]\x7d]"

/-- The final request path built by `fetchGalaxyData`
(`src/accounts/fetchAccountsGlx.js` / `src/customers.js`): a
`THIRDPARTYREVNUM > maxRev` filter is appended only when `maxRev > 0`. -/
def fetchGalaxyUrl (path : String) (maxRev : Int) : String :=
  if maxRev > 0 then
    path ++ "?filters=" ++ buildRawFilterNum "THIRDPARTYREVNUM" maxRev "Greater"
  else
    path

/-- The affiliate view path used by both affiliate fetchers. -/
def affiliatePath : String := "/api/glx/views/Customer/custom/ZH_AFFILIATE"

/-- The final request URL built by `fetchAffiliatesSince`
(`src/accounts/fetchAffiliatesGlx.js`): the `GreaterOrEqual` filter is
always appended, for every `minRev`. -/
def fetchAffiliatesUrl (minRev : Int) : String :=
  affiliatePath ++ "?filters=" ++ buildRawFilterNum "AFFILIATES_REVNUM" minRev "GreaterOrEqual"

/-- The final request URL built by `fetchAffiliatesByCustomer`
(`src/accounts/fetchAffiliates.js`): exact match on the customer id. -/
def fetchAffiliatesByCustomerUrl (custTrdrId : String) : String :=
  affiliatePath ++ "?filters=" ++ buildRawFilterStr "AFFILIATES_CUST_TRDRID" custTrdrId "Equal"

/-! ### Chunking (`BATCH_SIZE` grouping in both upsert modules) -/

/-- The chunking expression
`Array.from(\x7blength: Math.ceil(n / c)\x7d, (_, i) => l.slice(i*c, i*c + c))`
used by `upsertAccounts` and `upsertAffiliates`. -/
def sliceChunks {α : Type} (c : Nat) (l : List α) : List (List α) :=
  (List.range ((l.length + c - 1) / c)).map (fun i => (l.drop (i * c)).take c)

/-! ### Zoho upsert transport model -/

/-- One per-record entry of a Zoho upsert response body
(`status: "success" | "error"`). -/
inductive RowRes
  | success (action : String) (id : Option String)
  | failure (code : String) (message : String)
deriving DecidableEq, Repr

/-- A Zoho upsert call response: HTTP status plus body; `body = none`
models a malformed body (`!Array.isArray(res.data?.data)`). -/
structure ZohoCallResp where
  status : Int
  body : Option (List RowRes)
deriving DecidableEq, Repr

/-- One entry of the `details` list accumulated by `upsertAccounts`. -/
inductive AcctDetail
  | httpError (httpStatus : Int)
  | okRec (action : String) (id : Option String)
  | errRec (code : String) (message : String)
deriving DecidableEq, Repr

/-- One entry of the `details` list accumulated by `upsertAffiliates`
(these also record the `Trader_ID` of the record sent at the same index). -/
inductive AffDetail
  | httpError (httpStatus : Int)
  | okRec (action : String) (id : Option String) (trader : Option String)
  | errRec (code : String) (message : String) (trader : Option String)
deriving DecidableEq, Repr

/-- Per-record accounting of one well-formed `upsertAccounts` batch response:
`(success increments, failed increments, details in row order)`. -/
def acctTallyRows : List RowRes → Nat × Nat × List AcctDetail
  | [] => (0, 0, [])
  | r :: rs =>
    let rest := acctTallyRows rs
    match r with
    | .success action id => (rest.1 + 1, rest.2.1, .okRec action id :: rest.2.2)
    | .failure code msg => (rest.1, rest.2.1 + 1, .errRec code msg :: rest.2.2)

/-- Accounting of one `upsertAccounts` batch call: a non-200 status or a
malformed body fails the whole chunk with a single `http_error` detail;
otherwise the response rows are tallied one by one. -/
def acctChunkTally (group : List ZohoAccount) (resp : ZohoCallResp) :
    Nat × Nat × List AcctDetail :=
  match resp.body with
  | some rows =>
    if resp.status = 200 then acctTallyRows rows
    else (0, group.length, [.httpError resp.status])
  | none => (0, group.length, [.httpError resp.status])

/-- The sequential batch loop of `upsertAccounts`, calling the transport once
per group (call index = group index) and summing the tallies. -/
def acctRunGroups (zoho : Nat → ZohoCallResp) : Nat → List (List ZohoAccount) →
    Nat × Nat × List AcctDetail
  | _, [] => (0, 0, [])
  | gi, g :: gs =>
    let t := acctChunkTally g (zoho gi)
    let rest := acctRunGroups zoho (gi + 1) gs
    (t.1 + rest.1, t.2.1 + rest.2.1, t.2.2 ++ rest.2.2)

/-! ### upsertAccounts (`src/accounts/pushAccountsZoho.js`, part_005 variant) -/

/-- Accounts batch size (`BATCH_SIZE = 100` in the part_005 variant). -/
def ACCOUNTS_BATCH_SIZE : Nat := 100

/-- Validity of a mapped account record: the mapping loop drops a record
whose `Account_Name` or `Trader_ID` is missing or empty (JS falsy). -/
def validAcc (m : ZohoAccount) : Bool :=
  truthyStr m.Account_Name && truthyStr m.Trader_ID

/-- Whether the affiliate link lookup hits for a mapped record:
`affiliateIdByCustomerRevNum && m.Rev_Number` (0 is falsy) and the map
contains the revision key. -/
def attachHit (linkMap : List (Int × String)) (m : ZohoAccount) : Bool :=
  match m.Rev_Number with
  | some rv => rv ≠ 0 && (jsGet linkMap rv).isSome
  | none => false

/-- Attach the `Affiliate_To` lookup to a mapped record when the link map
has an id for its `Rev_Number` (part_005, attach step of the mapping loop). -/
def attachAffiliate (linkMap : List (Int × String)) (m : ZohoAccount) : ZohoAccount :=
  match m.Rev_Number with
  | some rv =>
    if rv ≠ 0 then
      match jsGet linkMap rv with
      | some zid => { m with Affiliate_To := some zid }
      | none => m
    else m
  | none => m

/-- Result of the mapping loop of `upsertAccounts`: kept records in input
order, plus the `dropped` and `affiliateAttachedCount` tallies. -/
structure MappedOut where
  mapped : List ZohoAccount
  dropped : Nat
  attached : Nat
deriving DecidableEq, Repr

/-- One step of the mapping loop of `upsertAccounts`: map, drop the record
if `Account_Name` or `Trader_ID` is falsy (counting it), otherwise attach
the affiliate link and keep it. -/
def mappedStep (linkMap : List (Int × String)) (acc : MappedOut) (gx : GxRow) : MappedOut :=
  let m := mapGalaxyToZohoAccount gx
  if ¬ truthyStr m.Account_Name then { acc with dropped := acc.dropped + 1 }
  else if ¬ truthyStr m.Trader_ID then { acc with dropped := acc.dropped + 1 }
  else
    { acc with
      mapped := acc.mapped ++ [attachAffiliate linkMap m]
      attached := acc.attached + (if attachHit linkMap m then 1 else 0) }

/-- The mapping/validation/attach loop of `upsertAccounts`. -/
def mappedAccounts (items : List GxRow) (linkMap : List (Int × String)) : MappedOut :=
  items.foldl (mappedStep linkMap) ⟨[], 0, 0⟩

/-- Return value of `upsertAccounts` (`debug` info always included here). -/
structure AcctUpsertOut where
  success : Nat
  failed : Nat
  details : List AcctDetail
  dropped : Nat
  attached : Nat
deriving DecidableEq, Repr

/-- `upsertAccounts` from `src/accounts/pushAccountsZoho.js` (part_005):
map + validate + attach, chunk into groups of 100, submit each chunk to the
transport, and aggregate per-record outcomes. -/
def upsertAccounts (items : List GxRow) (linkMap : List (Int × String))
    (zoho : Nat → ZohoCallResp) : AcctUpsertOut :=
  let M := mappedAccounts items linkMap
  if M.mapped.isEmpty then ⟨0, 0, [], M.dropped, M.attached⟩
  else
    let groups := sliceChunks ACCOUNTS_BATCH_SIZE M.mapped
    let t := acctRunGroups zoho 0 groups
    ⟨t.1, t.2.1, t.2.2, M.dropped, M.attached⟩

/-! ### upsertAffiliates (`src/accounts/pushAffiliatesZoho.js`) -/

/-- Affiliates batch size (`BATCH_SIZE = 200`). -/
def AFFILIATES_BATCH_SIZE : Nat := 200

/-- One step of the dedup-by-`Trader_ID` loop of `upsertAffiliates`:
skip records with falsy `Trader_ID` or `Account_Name`; otherwise keep the
record with the strictly higher `Rev_Number` (first arrival wins ties). -/
def affDedupStep (acc : List (String × AffAccount)) (rec : AffAccount) :
    List (String × AffAccount) :=
  match rec.Trader_ID, rec.Account_Name with
  | some t, some n =>
    if t = "" ∨ n = "" then acc
    else
      match jsGet acc t with
      | none => jsSet acc t rec
      | some prev =>
        if numOr0 rec.Rev_Number > numOr0 prev.Rev_Number then jsSet acc t rec else acc
  | _, _ => acc

/-- The dedup-by-`Trader_ID` map (`byTrader`) of `upsertAffiliates`. -/
def dedupAffByTrader (recs : List AffAccount) : List (String × AffAccount) :=
  recs.foldl affDedupStep []

/-- Per-record accounting of one well-formed `upsertAffiliates` batch
response, pairing response row `i` with the sent record `group[i]`:
`(success, failed, TraderId↦ZohoId pairs in insertion order, details)`. -/
def affTallyRows : List RowRes → List AffAccount →
    Nat × Nat × List (String × String) × List AffDetail
  | [], _ => (0, 0, [], [])
  | r :: rs, group =>
    let sent := group.head?
    let sentTrader := sent.bind (·.Trader_ID)
    let rest := affTallyRows rs group.tail
    match r with
    | .success action id =>
      let pair := match id, sentTrader with
        | some zid, some t => [(t, zid)]
        | _, _ => []
      (rest.1 + 1, rest.2.1, pair ++ rest.2.2.1, .okRec action id sentTrader :: rest.2.2.2)
    | .failure code msg =>
      (rest.1, rest.2.1 + 1, rest.2.2.1, .errRec code msg sentTrader :: rest.2.2.2)

/-- Accounting of one `upsertAffiliates` batch call (non-200 or malformed
body fails the whole chunk, yielding no id pairs). -/
def affChunkTally (group : List AffAccount) (resp : ZohoCallResp) :
    Nat × Nat × List (String × String) × List AffDetail :=
  match resp.body with
  | some rows =>
    if resp.status = 200 then affTallyRows rows group
    else (0, group.length, [], [.httpError resp.status])
  | none => (0, group.length, [], [.httpError resp.status])

/-- The batch loop of `upsertAffiliates` over all groups (the source fires
the calls with `Promise.all` and merges the ordered results; call index =
group index, so the merged outcome is this sequential aggregation). -/
def affRunGroups (zoho : Nat → ZohoCallResp) : Nat → List (List AffAccount) →
    Nat × Nat × List (String × String) × List AffDetail
  | _, [] => (0, 0, [], [])
  | gi, g :: gs =>
    let t := affChunkTally g (zoho gi)
    let rest := affRunGroups zoho (gi + 1) gs
    (t.1 + rest.1, t.2.1 + rest.2.1, t.2.2.1 ++ rest.2.2.1, t.2.2.2 ++ rest.2.2.2)

/-- Return value of `upsertAffiliates`. -/
structure AffUpsertOut where
  success : Nat
  failed : Nat
  idByTraderId : List (String × String)
  details : List AffDetail
deriving DecidableEq, Repr

/-- `upsertAffiliates` from `src/accounts/pushAffiliatesZoho.js`: map,
dedup by `Trader_ID` keeping the highest `Rev_Number`, chunk into groups of
200, submit, and collect the `Trader_ID → Zoho id` map from the per-record
successes. -/
def upsertAffiliates (affRows : List AffRow) (zoho : Nat → ZohoCallResp) : AffUpsertOut :=
  let mappedAll := affRows.map mapAffToZohoAccount
  let byTrader := dedupAffByTrader mappedAll
  let mapped := byTrader.map (·.2)
  if mapped.isEmpty then ⟨0, 0, [], []⟩
  else
    let groups := sliceChunks AFFILIATES_BATCH_SIZE mapped
    let t := affRunGroups zoho 0 groups
    ⟨t.1, t.2.1, jsSetAll [] t.2.2.1, t.2.2.2⟩

/-! ### Affiliate maps and linking (`buildAffiliateMaps`, part_012) -/

/-- An entry of the `affRevToAffTrader` map: `\x7baffTraderId, rev\x7d`. -/
structure AffLinkEntry where
  affTraderId : String
  rev : Int
deriving DecidableEq, Repr

/-- Return value of `buildAffiliateMaps`. -/
structure AffMapsOut where
  affRevToAffTrader : List (Int × AffLinkEntry)
  uniqueAffRows : List AffRow
deriving DecidableEq, Repr

/-- One step of the `buildAffiliateMaps` loop (part_012): skip rows whose
coerced revision is 0 or whose uppercased trader id is empty; group by
revision (first arrival wins, since the stored `rev` equals the key) and
dedup by trader id keeping the strictly higher revision. -/
def affMapsStep (acc : List (Int × AffLinkEntry) × List (String × AffRow)) (row : AffRow) :
    List (Int × AffLinkEntry) × List (String × AffRow) :=
  let affRev := numOr0 row.AFFILIATES_REVNUM
  let affTrader := jsToUpper (row.AFFILIATES_TRDRID.getD "")
  if affRev = 0 ∨ affTrader = "" then acc
  else
    let m1 := match jsGet acc.1 affRev with
      | none => jsSet acc.1 affRev ⟨affTrader, affRev⟩
      | some prev =>
        if affRev > prev.rev then jsSet acc.1 affRev ⟨affTrader, affRev⟩ else acc.1
    let m2 := match jsGet acc.2 affTrader with
      | none => jsSet acc.2 affTrader row
      | some prevRow =>
        if affRev > numOr0 prevRow.AFFILIATES_REVNUM then jsSet acc.2 affTrader row else acc.2
    (m1, m2)

/-- `buildAffiliateMaps` from part_012: the `AFFILIATES_REVNUM → affiliate`
link map and the unique affiliate rows (dedup by trader id) for upsert. -/
def buildAffiliateMaps (allAffRows : List AffRow) : AffMapsOut :=
  let fin := allAffRows.foldl affMapsStep ([], [])
  ⟨fin.1, fin.2.map (·.2)⟩

/-- The final linking step of part_012: `RevNum → affiliate Zoho id`, kept
only when the affiliate with that trader id upserted successfully. -/
def buildLinkMap (affRevToAffTrader : List (Int × AffLinkEntry))
    (idByTraderId : List (String × String)) : List (Int × String) :=
  affRevToAffTrader.foldl
    (fun acc p =>
      match jsGet idByTraderId p.2.affTraderId with
      | some zid => jsSet acc p.1 zid
      | none => acc)
    []

/-- The batch filter of part_012: restrict the unique affiliates to those
whose revision appears among the card-holder revisions of the batch
(`batchRevNumSet.has(Number(affRow.AFFILIATES_REVNUM))`). -/
def relevantAffiliates (allAff : List AffRow) (batchRevs : List Int) : List AffRow :=
  (buildAffiliateMaps allAff).uniqueAffRows.filter (fun r =>
    match r.AFFILIATES_REVNUM with
    | some rv => batchRevs.contains rv
    | none => false)

/-! ### Orchestrator helpers (part_012) -/

/-- The card-holder revision collection of part_012: revisions of sliced
customers that have a non-empty `ZH_CUSTOMERS_MEMBER_CARDNO` and a finite
positive `THIRDPARTYREVNUM`. -/
def cardHolderRevNums (items : List GxRow) : List Int :=
  items.filterMap (fun it =>
    match it.ZH_CUSTOMERS_MEMBER_CARDNO with
    | some c =>
      if c = "" then none
      else
        match it.THIRDPARTYREVNUM with
        | some rev => if rev > 0 then some rev else none
        | none => none
    | none => none)

/-- The affiliate fetch bound of part_012: start from the watermark
(`sinceRev`); when card-holder revisions exist, use their minimum only if
the watermark is 0 or that minimum is below the watermark. -/
def affFetchMinRev (sinceRev : Int) (revs : List Int) : Int :=
  match revs with
  | [] => sinceRev
  | r :: rs =>
    let minRevInBatch := rs.foldl min r
    if sinceRev = 0 ∨ minRevInBatch < sinceRev then minRevInBatch else sinceRev

/-- `parseSinceRevOverride` from part_012: `FETCH_ALL=1` forces 0; a
finite non-negative `FETCH_SINCE_REV` overrides; anything else falls back
to the Zoho watermark.  (`override = none` covers both an unset and a
non-numeric variable, which behave identically.) -/
def parseSinceRevOverride (fetchAll : Bool) (override : Option Int) (maxZohoRev : Int) : Int :=
  if fetchAll then 0
  else
    match override with
    | some n => if n ≥ 0 then n else maxZohoRev
    | none => maxZohoRev

/-! ### Per-customer affiliate fetch (`src/accounts/fetchAffiliates.js`) -/

/-- First-occurrence deduplication (the observable order of
`Array.from(new Set(l))`). -/
def dedupFirstAux : List String → List String → List String
  | _, [] => []
  | seen, x :: xs =>
    if x ∈ seen then dedupFirstAux seen xs else x :: dedupFirstAux (x :: seen) xs

/-- `Array.from(new Set(l))`. -/
def dedupFirst (l : List String) : List String := dedupFirstAux [] l

/-- The id normalization of `fetchAffiliatesForCustomers`: uppercase,
drop empties (`filter(Boolean)`), dedup via `Set`. -/
def normalizeCustomerIds (l : List String) : List String :=
  dedupFirst ((l.map jsToUpper).filter (fun s => s ≠ ""))

/-- The `stats` object returned by `fetchAffiliatesForCustomers`. -/
structure AffFetchStats where
  totalCustomers : Nat
  succeeded : Nat
  failed : Nat
deriving DecidableEq, Repr

/-- `fetchAffiliatesForCustomers` from `src/accounts/fetchAffiliates.js`.
`fetch cid = some rows` models a per-customer fetch that (possibly after
its internal retry) succeeded with `rows`; `none` models one that threw.
The source drains a shared queue with `min(concurrency, n)` workers, each
id being shifted and processed exactly once and each completion appending
its rows and bumping exactly one counter; the aggregate counts and row
multiset are schedule-independent, embedded here as the sequential
schedule in queue order. -/
def fetchAffiliatesForCustomers (customerTrdrIds : List String)
    (fetch : String → Option (List AffRow)) : List AffRow × AffFetchStats :=
  let ids := normalizeCustomerIds customerTrdrIds
  let r := ids.foldl
    (fun (acc : List AffRow × Nat × Nat) cid =>
      match fetch cid with
      | some got => (acc.1 ++ got, acc.2.1 + 1, acc.2.2)
      | none => (acc.1, acc.2.1, acc.2.2 + 1))
    ([], 0, 0)
  (r.1, ⟨ids.length, r.2.1, r.2.2⟩)

/-! ### The orchestrator run (part_012 `runJobOnce`) -/

/-- Outcome of one primary (customer) fetch attempt: a thrown
network/connection error, a response without a numeric `status`, or a
response with status, status text and `Items` (a non-array `Items` is
modelled by the empty list, as in the source). -/
inductive FetchOutcome
  | netErr (msg : String)
  | badResp
  | resp (status : Int) (statusText : String) (items : List GxRow)
deriving DecidableEq, Repr

/-- An affiliate fetch response (`status` plus `Items`). -/
structure AffResp where
  status : Int
  items : List AffRow
deriving DecidableEq, Repr

/-- The environment of one run: session/auth state and the transport
oracles, each indexed by call or attempt number.  `auth i` is the outcome
of the `i`-th `authenticate` call (`Except.error` = thrown). -/
structure RunEnv where
  hasSession : Bool
  auth : Nat → Except String Unit
  maxZohoRev : Int
  fetchAll : Bool
  fetchSinceRev : Option Int
  devLimit : Nat
  primary : Nat → FetchOutcome
  affFetch : Nat → Except String AffResp
  affUpsert : Nat → ZohoCallResp
  acctUpsert : Nat → ZohoCallResp

/-- Call counts observed during a run (for the retry/re-auth claims). -/
structure RunTrace where
  auths : Nat
  reauths : Nat
  primaryFetches : Nat
  affAttempts : Nat
deriving DecidableEq, Repr

/-- The structured result of one run: `failed stage error` models
`\x7bok:false, stage, ...\x7d` (for the `fetch:http` stage the carried string
is the status text; the body dump is not modelled), `done` models the
`ok:true` summary.  The early no-items summary has no `linkedCustomers`
key in the source; it is modelled as 0. -/
inductive RunResult
  | failed (stage : String) (error : String)
  | done (processed success failedCount affiliatesFetched affiliatesUpserted
      linkedCustomers : Nat)
deriving DecidableEq, Repr

/-- `ensureSession` of part_012: authenticate only when no session id is
cached; returns the number of auth calls made. -/
def ensureSessionM (env : RunEnv) : Except String Nat :=
  if env.hasSession then .ok 0
  else
    match env.auth 0 with
    | .ok _ => .ok 1
    | .error e => .error e

/-- The attempt loop of `fetchAffiliatesSince`
(`src/accounts/fetchAffiliatesGlx.js`): try the oracle, on a thrown error
retry while fuel remains, rethrowing the last error; also returns the
number of attempts made. -/
def affAttemptLoop (oracle : Nat → Except String AffResp) :
    Nat → Nat → Except String AffResp × Nat
  | attempt, fuel =>
    match oracle attempt with
    | .ok r => (.ok r, attempt + 1)
    | .error e =>
      match fuel with
      | 0 => (.error e, attempt + 1)
      | fuel' + 1 => affAttemptLoop oracle (attempt + 1) fuel'

/-- `fetchAffiliatesSince`: reject an invalid (negative) `minRev` with a
synthetic 400 response, otherwise run the attempt loop (`retry` extra
attempts after the first). -/
def fetchAffiliatesSinceM (minRev : Int) (retry : Nat)
    (oracle : Nat → Except String AffResp) : Except String AffResp × Nat :=
  if minRev < 0 then (.ok ⟨400, []⟩, 0)
  else affAttemptLoop oracle 0 retry

/-- part_012 steps 4–6: slice, collect card-holder revisions, fetch
affiliates once with `retry = 1` (an error after both attempts propagates
as an uncaught throw), build maps, filter to the batch revision set,
upsert affiliates, build the link map, upsert customers, and summarize. -/
def runPipeline (env : RunEnv) (sinceRev : Int) (tr : RunTrace) (fullItems : List GxRow) :
    Except String RunResult × RunTrace :=
  let items := if env.devLimit > 0 then fullItems.take env.devLimit else fullItems
  if items.isEmpty then (.ok (.done 0 0 0 0 0 0), tr)
  else
    let revs := cardHolderRevNums items
    let minRev := affFetchMinRev sinceRev revs
    let afr := fetchAffiliatesSinceM minRev 1 env.affFetch
    let tr2 := { tr with affAttempts := afr.2 }
    match afr.1 with
    | .error e => (.error e, tr2)
    | .ok affRes =>
      let allAff := if 200 ≤ affRes.status ∧ affRes.status < 300 then affRes.items else []
      let affiliatesFetched := allAff.length
      let maps := buildAffiliateMaps allAff
      let affUp := upsertAffiliates (relevantAffiliates allAff revs) env.affUpsert
      let linkMap := buildLinkMap maps.affRevToAffTrader affUp.idByTraderId
      let up := upsertAccounts items linkMap env.acctUpsert
      (.ok (.done items.length up.success up.failed affiliatesFetched affUp.success
        linkMap.length), tr2)

/-- The generic response checks of part_012 after the (possibly retried)
primary fetch: non-numeric status was already dispatched; a non-2xx status
ends the run at stage `fetch:http`, otherwise the pipeline continues on
`Items`. -/
def runWithResp (env : RunEnv) (sinceRev : Int) (tr : RunTrace)
    (s : Int) (st : String) (its : List GxRow) : Except String RunResult × RunTrace :=
  if s < 200 ∨ s ≥ 300 then (.ok (.failed "fetch:http" st), tr)
  else runPipeline env sinceRev tr its

/-- `runJobOnce` from part_012.  The first value is `Except.error e` when
the run body threw (the exported job wrapper maps that to stage `fatal`). -/
def runJobOnce (env : RunEnv) : Except String RunResult × RunTrace :=
  match ensureSessionM env with
  | .error e => (.error e, ⟨1, 0, 0, 0⟩)
  | .ok auths0 =>
    let sinceRev := parseSinceRevOverride env.fetchAll env.fetchSinceRev env.maxZohoRev
    match env.primary 0 with
    | .netErr msg => (.ok (.failed "fetch:first" msg), ⟨auths0, 0, 1, 0⟩)
    | .badResp =>
      (.ok (.failed "fetch:bad-response" "No/invalid response object from Galaxy"),
        ⟨auths0, 0, 1, 0⟩)
    | .resp s st its =>
      if s = 401 ∨ s = 403 then
        match env.auth auths0 with
        | .error e => (.error e, ⟨auths0 + 1, 1, 1, 0⟩)
        | .ok _ =>
          match env.primary 1 with
          | .netErr msg => (.ok (.failed "fetch:reauth" msg), ⟨auths0 + 1, 1, 2, 0⟩)
          | .badResp =>
            (.ok (.failed "fetch:bad-response" "No/invalid response object from Galaxy"),
              ⟨auths0 + 1, 1, 2, 0⟩)
          | .resp s2 st2 its2 => runWithResp env sinceRev ⟨auths0 + 1, 1, 2, 0⟩ s2 st2 its2
      else
        runWithResp env sinceRev ⟨auths0, 0, 1, 0⟩ s st its

/-- The exported job wrapper of part_012: an uncaught throw becomes a
`\x7bok:false, stage:"fatal"\x7d` result. -/
def jobRun (env : RunEnv) : RunResult × RunTrace :=
  match runJobOnce env with
  | (.ok r, t) => (r, t)
  | (.error e, t) => (.failed "fatal" e, t)

/-! ### Concrete scenario environments used by witnesses and counterexamples -/

/-- A customer row with only a name and a trader id (a minimal valid item). -/
def gxPlainItem : GxRow := { TRDRNAME := some "ACME", TRDRID := some "c1" }

/-- Scenario: both primary fetch attempts answer HTTP 401. -/
def envBoth401 : RunEnv :=
  { hasSession := true
    auth := fun _ => .ok ()
    maxZohoRev := 0
    fetchAll := false
    fetchSinceRev := none
    devLimit := 0
    primary := fun _ => .resp 401 "Unauthorized" []
    affFetch := fun _ => .error "unused"
    affUpsert := fun _ => ⟨200, some []⟩
    acctUpsert := fun _ => ⟨200, some []⟩ }

/-- Scenario: primary fetch succeeds with one item, both affiliate fetch
attempts throw a network error. -/
def envAffNetFail : RunEnv :=
  { hasSession := true
    auth := fun _ => .ok ()
    maxZohoRev := 0
    fetchAll := false
    fetchSinceRev := none
    devLimit := 0
    primary := fun _ => .resp 200 "OK" [gxPlainItem]
    affFetch := fun _ => .error "connect ETIMEDOUT"
    affUpsert := fun _ => ⟨200, some []⟩
    acctUpsert := fun _ => ⟨200, some []⟩ }

/-- A card-holding customer with revision 10 (eligible for linking). -/
def gxCardItem : GxRow :=
  { TRDRNAME := some "ACME", TRDRID := some "c1"
    ZH_CUSTOMERS_MEMBER_CARDNO := some "123", THIRDPARTYREVNUM := some 10 }

/-- Scenario: like `envAffNetFail` but the affiliate fetch answers HTTP 500. -/
def envAffHttp500 : RunEnv :=
  { envAffNetFail with affFetch := fun _ => .ok ⟨500, []⟩ }

/-- An affiliate row with trader id T1 and revision 7 (linking scenario). -/
def affRowC4 : AffRow :=
  { AFFILIATES_TRDRID := some "T1", AFF_NAME := some "Alpha", AFFILIATES_REVNUM := some 7 }

/-- A customer row sharing revision 7 with `affRowC4` (linking scenario). -/
def gxLinkedC4 : GxRow :=
  { TRDRNAME := some "ACME", TRDRID := some "c1", THIRDPARTYREVNUM := some 7 }

/-- An affiliate upsert transport that answers one success with id Z9. -/
def zohoAffC4 : Nat → ZohoCallResp :=
  fun _ => ⟨200, some [.success "insert" (some "Z9")]⟩

/-- The records the affiliate dedup loop keeps (JS-truthy `Trader_ID` and
`Account_Name`): the complement of its `continue` condition. -/
def validAff (r : AffAccount) : Bool :=
  truthyStr r.Trader_ID && truthyStr r.Account_Name

/-- A mapped affiliate record with revision 5. -/
def affRec5 : AffAccount :=
  { Trader_ID := some "T1", Account_Name := some "Alpha", Rev_Number := some 5 }

/-- Another mapped affiliate record with the same trader id and revision 7. -/
def affRec7 : AffAccount :=
  { Trader_ID := some "T1", Account_Name := some "Alpha Seven", Rev_Number := some 7 }

/-- Loop invariant of the dedup-by-`Trader_ID` fold: keys are unique, each
stored record carries its key as trader id, each stored record is a
processed record whose revision dominates every processed valid record of
the same trader, and a key that is absent has no processed valid record. -/
def AffDedupInv (processed : List AffAccount) (acc : List (String × AffAccount)) : Prop :=
  ((acc.map Prod.fst).Nodup) ∧
  (∀ p ∈ acc, p.2.Trader_ID = some p.1) ∧
  (∀ t rec, jsGet acc t = some rec →
    rec ∈ processed ∧ validAff rec = true ∧ rec.Trader_ID = some t ∧
    ∀ r ∈ processed, validAff r = true → r.Trader_ID = some t →
      numOr0 r.Rev_Number ≤ numOr0 rec.Rev_Number) ∧
  (∀ t, jsGet acc t = none →
    ∀ r ∈ processed, validAff r = true → r.Trader_ID ≠ some t)

/-! # Theorems -/

/-! ### Association-list (JS `Map`) lemmas -/

theorem jsGet_jsSet_self {κ ν : Type} [DecidableEq κ] (m : List (κ × ν)) (k : κ) (v : ν) :
    jsGet (jsSet m k v) k = some v := by
  induction m with
  | nil => simp [jsGet, jsSet]
  | cons p rest ih =>
    obtain ⟨k1, v1⟩ := p
    by_cases h : k1 = k <;> simp [jsGet, jsSet, h, ih]

theorem jsGet_jsSet_ne {κ ν : Type} [DecidableEq κ] (m : List (κ × ν)) (k key : κ) (v : ν)
    (h : k ≠ key) : jsGet (jsSet m k v) key = jsGet m key := by
  induction m with
  | nil => simp [jsGet, jsSet, h]
  | cons p rest ih =>
    obtain ⟨k1, v1⟩ := p
    by_cases h1 : k1 = k
    · subst h1
      simp [jsGet, jsSet, h, Ne.symm h]
    · simp only [jsSet, if_neg h1]
      by_cases h2 : k1 = key <;> simp [jsGet, h2, ih]

theorem jsGet_mem {κ ν : Type} [DecidableEq κ] (m : List (κ × ν)) (k : κ) (v : ν)
    (h : jsGet m k = some v) : (k, v) ∈ m := by
  induction m with
  | nil => simp [jsGet] at h
  | cons p rest ih =>
    obtain ⟨k1, v1⟩ := p
    by_cases h1 : k1 = k
    · subst h1
      simp [jsGet] at h
      simp [h]
    · simp [jsGet, h1] at h
      exact List.mem_cons_of_mem _ (ih h)

theorem jsGet_jsSetAll_mem {κ ν : Type} [DecidableEq κ] (ps : List (κ × ν)) :
    ∀ (init : List (κ × ν)) (k : κ) (v : ν),
      jsGet (jsSetAll init ps) k = some v → (k, v) ∈ ps ∨ jsGet init k = some v := by
  induction ps with
  | nil => intro init k v h; exact Or.inr h
  | cons p rest ih =>
    intro init k v h
    have h2 : jsGet (jsSetAll (jsSet init p.1 p.2) rest) k = some v := by
      simpa [jsSetAll] using h
    rcases ih (jsSet init p.1 p.2) k v h2 with hin | hget
    · exact Or.inl (List.mem_cons_of_mem _ hin)
    · by_cases hk : p.1 = k
      · subst hk
        rw [jsGet_jsSet_self] at hget
        injection hget with hv
        exact Or.inl (by rw [← hv]; exact List.mem_cons_self _ _)
      · rw [jsGet_jsSet_ne _ _ _ _ hk] at hget
        exact Or.inr hget

theorem jsKeys_jsSet {κ ν : Type} [DecidableEq κ] (m : List (κ × ν)) (k : κ) (v : ν) :
    (jsSet m k v).map Prod.fst = m.map Prod.fst ∨
    (k ∉ m.map Prod.fst ∧ (jsSet m k v).map Prod.fst = m.map Prod.fst ++ [k]) := by
  induction m with
  | nil => exact Or.inr ⟨by simp, by simp [jsSet]⟩
  | cons p rest ih =>
    obtain ⟨k1, v1⟩ := p
    by_cases h1 : k1 = k
    · subst h1
      exact Or.inl (by simp [jsSet])
    · simp only [jsSet, if_neg h1, List.map_cons]
      rcases ih with h | ⟨hnot, h⟩
      · exact Or.inl (by rw [h])
      · refine Or.inr ⟨?_, by rw [h]; simp⟩
        simp only [List.map_cons, List.mem_cons]
        rintro (h2 | h2)
        · exact h1 h2.symm
        · exact hnot h2

theorem jsKeys_jsSet_nodup {κ ν : Type} [DecidableEq κ] (m : List (κ × ν)) (k : κ) (v : ν)
    (h : (m.map Prod.fst).Nodup) : ((jsSet m k v).map Prod.fst).Nodup := by
  rcases jsKeys_jsSet m k v with he | ⟨hnot, he⟩
  · rw [he]; exact h
  · rw [he]
    simp only [List.nodup_append, List.nodup_cons, List.nodup_nil, List.disjoint_singleton]
    exact ⟨h, by simp, by simpa using hnot⟩

theorem jsGet_of_mem_nodup {κ ν : Type} [DecidableEq κ] (m : List (κ × ν)) (k : κ) (v : ν)
    (hnd : (m.map Prod.fst).Nodup) (h : (k, v) ∈ m) : jsGet m k = some v := by
  induction m with
  | nil => simp at h
  | cons p rest ih =>
    obtain ⟨k1, v1⟩ := p
    rw [List.map_cons] at hnd
    have hnd2 := List.nodup_cons.mp hnd
    rcases List.mem_cons.mp h with h1 | h1
    · cases h1
      simp [jsGet]
    · have hkmem : k ∈ rest.map Prod.fst := by
        simpa using List.mem_map_of_mem Prod.fst h1
      have hk : k1 ≠ k := by
        intro he
        subst he
        exact hnd2.1 hkmem
      simp only [jsGet, if_neg hk]
      exact ih hnd2.2 h1

/-! ### Chunking lemmas -/

theorem ceil_div_succ (n c : Nat) (hn : 1 ≤ n) (hc : 0 < c) :
    (n + c - 1) / c = ((n - c) + c - 1) / c + 1 := by
  have h1 : n + c - 1 = (n - 1) + c := by omega
  rw [h1, Nat.add_div_right _ hc]
  rcases le_or_lt n c with h | h
  · have h2 : n - c = 0 := by omega
    rw [h2]
    have h3 : (n - 1) / c = 0 := Nat.div_eq_of_lt (by omega)
    have h4 : (0 + c - 1) / c = 0 := Nat.div_eq_of_lt (by omega)
    rw [h3, h4]
  · have h2 : (n - c) + c - 1 = (n - 1 - c) + c := by omega
    rw [h2, Nat.add_div_right _ hc]
    have h4 : n - 1 = (n - 1 - c) + c := by omega
    conv_lhs => rw [h4, Nat.add_div_right _ hc]

theorem sliceChunks_nil {α : Type} (c : Nat) : sliceChunks c ([] : List α) = [] := by
  have h : (c - 1) / c = 0 := by
    rcases Nat.eq_zero_or_pos c with h | h
    · simp [h]
    · exact Nat.div_eq_of_lt (by omega)
  simp [sliceChunks, h]

theorem sliceChunks_cons_eq {α : Type} (c : Nat) (hc : 0 < c) (l : List α) (hl : l ≠ []) :
    sliceChunks c l = l.take c :: sliceChunks c (l.drop c) := by
  have hn : 1 ≤ l.length := List.length_pos.mpr hl
  have hlen : (l.length + c - 1) / c = ((l.drop c).length + c - 1) / c + 1 := by
    rw [List.length_drop]
    exact ceil_div_succ l.length c hn hc
  unfold sliceChunks
  rw [hlen, List.range_succ_eq_map, List.map_cons, List.map_map]
  simp only [Nat.zero_mul, List.drop_zero]
  congr 1
  apply List.map_congr_left
  intro i _
  simp only [Function.comp_apply]
  rw [List.drop_drop]
  congr 2
  simp [Nat.succ_eq_add_one]
  ring

theorem sliceChunks_join {α : Type} (c : Nat) (hc : 0 < c) (l : List α) :
    (sliceChunks c l).flatten = l := by
  suffices h : ∀ (n : Nat) (l : List α), l.length = n → (sliceChunks c l).flatten = l from
    h l.length l rfl
  intro n
  induction n using Nat.strong_induction_on with
  | _ n ih =>
    intro l hn
    by_cases hl : l = []
    · subst hl
      simp [sliceChunks_nil]
    · have hpos : 0 < l.length := List.length_pos.mpr hl
      rw [sliceChunks_cons_eq c hc l hl, List.flatten_cons,
        ih (l.drop c).length (by simp [List.length_drop]; omega) (l.drop c) rfl]
      exact List.take_append_drop c l

theorem sliceChunks_length {α : Type} (c : Nat) (l : List α) :
    (sliceChunks c l).length = (l.length + c - 1) / c := by
  simp [sliceChunks]

theorem sliceChunks_sizes {α : Type} (c : Nat) (l : List α) :
    ∀ g ∈ sliceChunks c l, g.length ≤ c := by
  intro g hg
  simp only [sliceChunks, List.mem_map] at hg
  obtain ⟨i, _, rfl⟩ := hg
  exact List.length_take_le _ _

/-! ### List-minimum lemmas (for the affiliate fetch bound) -/

theorem foldl_min_le_init (rs : List Int) : ∀ r : Int, rs.foldl min r ≤ r := by
  induction rs with
  | nil => intro r; simp
  | cons x xs ih =>
    intro r
    calc xs.foldl min (min r x) ≤ min r x := ih (min r x)
    _ ≤ r := min_le_left _ _

theorem foldl_min_le_mem (rs : List Int) : ∀ (r x : Int), x ∈ rs → rs.foldl min r ≤ x := by
  induction rs with
  | nil => intro r x hx; simp at hx
  | cons y ys ih =>
    intro r x hx
    rcases List.mem_cons.mp hx with h | h
    · subst h
      calc ys.foldl min (min r x) ≤ min r x := foldl_min_le_init ys _
      _ ≤ x := min_le_right _ _
    · exact ih (min r y) x h

theorem foldl_min_mem (rs : List Int) : ∀ r : Int, rs.foldl min r = r ∨ rs.foldl min r ∈ rs := by
  induction rs with
  | nil => intro r; simp
  | cons x xs ih =>
    intro r
    rcases ih (min r x) with h | h
    · rcases min_cases r x with ⟨he, _⟩ | ⟨he, _⟩
      · rw [List.foldl_cons, h, he]
        exact Or.inl rfl
      · rw [List.foldl_cons, h, he]
        exact Or.inr (List.mem_cons_self _ _)
    · exact Or.inr (List.mem_cons_of_mem _ h)

/-! ### Claim C8 -/

/-- Claim C8: for every record list and positive chunk size C, the batch
upserter builds exactly `ceil(N/C)` groups (one upsert call each), each of
at most C records, and their concatenation in order is the input list. -/
theorem C8_chunking {α : Type} (c : Nat) (hc : 0 < c) (l : List α) :
    (sliceChunks c l).length = (l.length + c - 1) / c ∧
    (∀ g ∈ sliceChunks c l, g.length ≤ c) ∧
    (sliceChunks c l).flatten = l := by
  exact ⟨sliceChunks_length c l, sliceChunks_sizes c l, sliceChunks_join c hc l⟩

/-- Witness for C8 at the accounts batch size: 250 records and C = 100
give 3 calls of sizes 100, 100, 50 whose concatenation is the input. -/
theorem C8_chunking_witness :
    (sliceChunks ACCOUNTS_BATCH_SIZE (List.range 250)).flatten = List.range 250 ∧
    (sliceChunks ACCOUNTS_BATCH_SIZE (List.range 250)).map List.length = [100, 100, 50] := by
  refine ⟨(C8_chunking ACCOUNTS_BATCH_SIZE (by decide) (List.range 250)).2.2, ?_⟩
  decide

/-! ### Claim C6 -/

/-- Claim C6 counterexample: with watermark 0 the secondary (affiliate)
fetch still applies the `GreaterOrEqual` filter — the request URL is not
the bare path, contradicting "when W = 0 no filter is applied". -/
theorem C6_counterexample :
    fetchAffiliatesUrl 0 =
      affiliatePath ++ "?filters=" ++ buildRawFilterNum "AFFILIATES_REVNUM" 0 "GreaterOrEqual" ∧
    fetchAffiliatesUrl 0 ≠ affiliatePath := by
  exact ⟨rfl, by decide⟩

/-- Claim C6 (amended): the primary fetch filters with `Greater` exactly
when W > 0 and applies no filter when W ≤ 0; the secondary fetch always
applies the `GreaterOrEqual` filter, for every W including 0. -/
theorem C6_filter_operators (p : String) (w : Int) :
    (0 < w → fetchGalaxyUrl p w =
      p ++ "?filters=" ++ buildRawFilterNum "THIRDPARTYREVNUM" w "Greater") ∧
    (w ≤ 0 → fetchGalaxyUrl p w = p) ∧
    fetchAffiliatesUrl w =
      affiliatePath ++ "?filters=" ++ buildRawFilterNum "AFFILIATES_REVNUM" w "GreaterOrEqual" := by
  refine ⟨fun h => ?_, fun h => ?_, rfl⟩
  · simp [fetchGalaxyUrl, h]
  · simp [fetchGalaxyUrl, not_lt.mpr h, Int.not_lt.mpr h]

/-- Witness for C6 at W = 5 on the customers view path. -/
theorem C6_filter_operators_witness :
    fetchGalaxyUrl "/api/glx/views/Customer/custom/zh_Customers_fin" 5 =
      "/api/glx/views/Customer/custom/zh_Customers_fin" ++ "?filters=" ++
        buildRawFilterNum "THIRDPARTYREVNUM" 5 "Greater" :=
  (C6_filter_operators "/api/glx/views/Customer/custom/zh_Customers_fin" 5).1 (by decide)

/-! ### Claim C3 -/

/-- Claim C3 counterexample: a batch with one eligible card-holder at
revision 10 and watermark 5 uses fetch bound 5, not the batch minimum 10 —
the bound does not equal the minimum eligible revision. -/
theorem C3_counterexample :
    cardHolderRevNums [gxCardItem] = [10] ∧
    affFetchMinRev 5 (cardHolderRevNums [gxCardItem]) = 5 ∧
    (5 : Int) ≠ 10 := by
  exact ⟨rfl, rfl, by decide⟩

/-- Claim C3 (amended): the secondary fetch bound is a lower bound on every
eligible (card-holder) revision of the batch — it equals the batch minimum
when the watermark is 0, and otherwise `min(watermark, batch minimum)`;
with no eligible records it is the watermark itself. -/
theorem C3_minrev_lower_bound (sinceRev : Int) (revs : List Int) :
    (∀ r ∈ revs, affFetchMinRev sinceRev revs ≤ r) ∧
    (revs = [] → affFetchMinRev sinceRev revs = sinceRev) ∧
    (sinceRev = 0 → revs ≠ [] → affFetchMinRev sinceRev revs ∈ revs) := by
  refine ⟨?_, ?_, ?_⟩
  · intro r hr
    cases revs with
    | nil => simp at hr
    | cons r0 rs =>
      rw [show affFetchMinRev sinceRev (r0 :: rs) =
        (if sinceRev = 0 ∨ rs.foldl min r0 < sinceRev then rs.foldl min r0 else sinceRev)
        from rfl]
      split_ifs with hcond
      · rcases List.mem_cons.mp hr with h | h
        · subst h; exact foldl_min_le_init rs r
        · exact foldl_min_le_mem rs r0 r h
      · push_neg at hcond
        rcases List.mem_cons.mp hr with h | h
        · subst h; exact le_trans hcond.2 (foldl_min_le_init rs r)
        · exact le_trans hcond.2 (foldl_min_le_mem rs r0 r h)
  · intro h; subst h; rfl
  · intro h0 hne
    subst h0
    cases revs with
    | nil => exact absurd rfl hne
    | cons r0 rs =>
      have hif : affFetchMinRev 0 (r0 :: rs) = rs.foldl min r0 := by
        simp [affFetchMinRev]
      rw [hif]
      rcases foldl_min_mem rs r0 with h | h
      · rw [h]; exact List.mem_cons_self _ _
      · exact List.mem_cons_of_mem _ h

/-- Witness for C3: with watermark 5 and eligible revisions `[10]` the
bound is at most 10 (it is 5, a lower bound on the batch). -/
theorem C3_minrev_lower_bound_witness : affFetchMinRev 5 [10] ≤ 10 :=
  (C3_minrev_lower_bound 5 [10]).1 10 (by decide)

/-! ### Claim C7 -/

theorem acctTallyRows_sum (rows : List RowRes) :
    (acctTallyRows rows).1 + (acctTallyRows rows).2.1 = rows.length := by
  induction rows with
  | nil => rfl
  | cons r rs ih =>
    cases r with
    | success action id =>
      simp only [acctTallyRows, List.length_cons]
      omega
    | failure code msg =>
      simp only [acctTallyRows, List.length_cons]
      omega

/-- Claim C7: for every upsert batch call, when the response is a 200 with
a per-record body covering the submitted chunk, success plus failed equals
the number of submitted records; a non-200 status or malformed body adds
the entire chunk size to failed, with a single `http_error` detail and no
per-record detail. -/
theorem C7_per_call_accounting (group : List ZohoAccount) (resp : ZohoCallResp) :
    (∀ rows, resp.body = some rows → resp.status = 200 → rows.length = group.length →
      (acctChunkTally group resp).1 + (acctChunkTally group resp).2.1 = group.length) ∧
    (resp.status ≠ 200 ∨ resp.body = none →
      acctChunkTally group resp = (0, group.length, [AcctDetail.httpError resp.status])) := by
  obtain ⟨s, b⟩ := resp
  cases b with
  | none =>
    refine ⟨fun rows hrows => by simp at hrows, fun _ => rfl⟩
  | some rows0 =>
    constructor
    · intro rows hrows hst hlen
      have he : rows0 = rows := by injection hrows
      subst he
      subst hst
      simpa [acctChunkTally, hlen] using acctTallyRows_sum rows0
    · intro h
      rcases h with h | h
      · simp only [acctChunkTally]
        rw [if_neg (by simpa using h)]
      · simp at h

/-- Witness for C7: a 200 response with one success and one rejection over
two records counts 1 + 1 = 2; a 500 response over the same chunk counts the
whole chunk as failed with a single http_error detail. -/
theorem C7_per_call_accounting_witness :
    (acctChunkTally [{}, {}] ⟨200, some [.success "insert" (some "z1"),
      .failure "DUPLICATE_DATA" "duplicate"]⟩).1 +
      (acctChunkTally [{}, {}] ⟨200, some [.success "insert" (some "z1"),
        .failure "DUPLICATE_DATA" "duplicate"]⟩).2.1 = 2 ∧
    acctChunkTally [{}, {}] ⟨500, none⟩ = (0, 2, [AcctDetail.httpError 500]) := by
  refine ⟨?_, ?_⟩
  · exact (C7_per_call_accounting [{}, {}] ⟨200, some [.success "insert" (some "z1"),
      .failure "DUPLICATE_DATA" "duplicate"]⟩).1 _ rfl rfl rfl
  · exact (C7_per_call_accounting [{}, {}] ⟨500, none⟩).2 (Or.inr rfl)

/-! ### Claim C9 -/

theorem countP_bool_split {α : Type} (p : α → Bool) (l : List α) :
    l.countP (fun a => ! p a) + l.countP p = l.length := by
  induction l with
  | nil => rfl
  | cons a l ih =>
    cases hp : p a <;> simp [List.countP_cons, hp] <;> omega

theorem mappedAccounts_fold (lm : List (Int × String)) :
    ∀ (items : List GxRow) (acc : MappedOut),
      (items.foldl (mappedStep lm) acc).mapped = acc.mapped ++
        (items.filter (fun gx => validAcc (mapGalaxyToZohoAccount gx))).map
          (fun gx => attachAffiliate lm (mapGalaxyToZohoAccount gx)) ∧
      (items.foldl (mappedStep lm) acc).dropped = acc.dropped +
        items.countP (fun gx => ! validAcc (mapGalaxyToZohoAccount gx)) := by
  intro items
  induction items with
  | nil => intro acc; simp
  | cons gx items ih =>
    intro acc
    rw [List.foldl_cons]
    by_cases hn : truthyStr (mapGalaxyToZohoAccount gx).Account_Name = true
    · by_cases ht : truthyStr (mapGalaxyToZohoAccount gx).Trader_ID = true
      · have hv : validAcc (mapGalaxyToZohoAccount gx) = true := by
          simp [validAcc, hn, ht]
        have hstep : mappedStep lm acc gx =
            { acc with
              mapped := acc.mapped ++ [attachAffiliate lm (mapGalaxyToZohoAccount gx)]
              attached := acc.attached +
                (if attachHit lm (mapGalaxyToZohoAccount gx) then 1 else 0) } := by
          simp [mappedStep, hn, ht]
        rw [hstep]
        obtain ⟨ih1, ih2⟩ := ih _
        refine ⟨?_, ?_⟩
        · rw [ih1]
          simp [hv, List.filter_cons, List.append_assoc]
        · rw [ih2]
          simp [hv, List.countP_cons]
      · have hv : validAcc (mapGalaxyToZohoAccount gx) = false := by
          simp [validAcc, ht]
        have hstep : mappedStep lm acc gx = { acc with dropped := acc.dropped + 1 } := by
          simp [mappedStep, hn, ht]
        rw [hstep]
        obtain ⟨ih1, ih2⟩ := ih _
        refine ⟨?_, ?_⟩
        · rw [ih1]
          simp [hv, List.filter_cons]
        · rw [ih2]
          simp [hv, List.countP_cons]
          omega
    · have hv : validAcc (mapGalaxyToZohoAccount gx) = false := by
        simp [validAcc, hn]
      have hstep : mappedStep lm acc gx = { acc with dropped := acc.dropped + 1 } := by
        simp [mappedStep, hn]
      rw [hstep]
      obtain ⟨ih1, ih2⟩ := ih _
      refine ⟨?_, ?_⟩
      · rw [ih1]
        simp [hv, List.filter_cons]
      · rw [ih2]
        simp [hv, List.countP_cons]
        omega

theorem mappedAccounts_mapped (items : List GxRow) (lm : List (Int × String)) :
    (mappedAccounts items lm).mapped =
      (items.filter (fun gx => validAcc (mapGalaxyToZohoAccount gx))).map
        (fun gx => attachAffiliate lm (mapGalaxyToZohoAccount gx)) := by
  simpa [mappedAccounts] using (mappedAccounts_fold lm items ⟨[], 0, 0⟩).1

theorem mappedAccounts_dropped (items : List GxRow) (lm : List (Int × String)) :
    (mappedAccounts items lm).dropped =
      items.countP (fun gx => ! validAcc (mapGalaxyToZohoAccount gx)) := by
  simpa [mappedAccounts] using (mappedAccounts_fold lm items ⟨[], 0, 0⟩).2

theorem upsertAccounts_eq_of_mapped_eq (items1 items2 : List GxRow)
    (lm : List (Int × String)) (zoho : Nat → ZohoCallResp)
    (h : (mappedAccounts items1 lm).mapped = (mappedAccounts items2 lm).mapped) :
    (upsertAccounts items1 lm zoho).success = (upsertAccounts items2 lm zoho).success ∧
    (upsertAccounts items1 lm zoho).failed = (upsertAccounts items2 lm zoho).failed := by
  by_cases he : (mappedAccounts items2 lm).mapped.isEmpty
  · constructor <;> simp [upsertAccounts, h, he]
  · constructor <;> simp [upsertAccounts, h, he]

/-- Claim C9: a record whose mapping lacks a mandatory identifier
(`Account_Name` or `Trader_ID`) is dropped and counted before batching;
the remaining records are exactly the valid ones, in order, and the upsert
outcome equals the outcome on the valid remainder alone — a dropped record
is never fatal to the batch. -/
theorem C9_drop_invalid_not_fatal (items : List GxRow) (lm : List (Int × String))
    (zoho : Nat → ZohoCallResp) :
    (mappedAccounts items lm).dropped =
      items.countP (fun gx => ! validAcc (mapGalaxyToZohoAccount gx)) ∧
    (mappedAccounts items lm).mapped =
      (items.filter (fun gx => validAcc (mapGalaxyToZohoAccount gx))).map
        (fun gx => attachAffiliate lm (mapGalaxyToZohoAccount gx)) ∧
    (mappedAccounts items lm).dropped + (mappedAccounts items lm).mapped.length =
      items.length ∧
    (upsertAccounts items lm zoho).success =
      (upsertAccounts (items.filter (fun gx => validAcc (mapGalaxyToZohoAccount gx))) lm
        zoho).success ∧
    (upsertAccounts items lm zoho).failed =
      (upsertAccounts (items.filter (fun gx => validAcc (mapGalaxyToZohoAccount gx))) lm
        zoho).failed := by
  have hfil : (items.filter (fun gx => validAcc (mapGalaxyToZohoAccount gx))).filter
      (fun gx => validAcc (mapGalaxyToZohoAccount gx)) =
      items.filter (fun gx => validAcc (mapGalaxyToZohoAccount gx)) :=
    List.filter_eq_self.mpr (fun a ha => (List.mem_filter.mp ha).2)
  have hmm : (mappedAccounts items lm).mapped =
      (mappedAccounts (items.filter (fun gx => validAcc (mapGalaxyToZohoAccount gx))) lm).mapped := by
    rw [mappedAccounts_mapped, mappedAccounts_mapped, hfil]
  have hiv := upsertAccounts_eq_of_mapped_eq _ _ lm zoho hmm
  refine ⟨mappedAccounts_dropped items lm, mappedAccounts_mapped items lm, ?_, hiv.1, hiv.2⟩
  rw [mappedAccounts_dropped, mappedAccounts_mapped]
  rw [List.length_map, ← List.countP_eq_length_filter]
  have hsum := countP_bool_split (fun gx => validAcc (mapGalaxyToZohoAccount gx)) items
  omega

/-! ### Claim C10 -/

theorem dedupFirstAux_spec (l : List String) :
    ∀ seen : List String, (dedupFirstAux seen l).Nodup ∧
      ∀ x ∈ dedupFirstAux seen l, x ∉ seen := by
  induction l with
  | nil => intro seen; simp [dedupFirstAux]
  | cons x xs ih =>
    intro seen
    by_cases hx : x ∈ seen
    · simpa [dedupFirstAux, hx] using ih seen
    · obtain ⟨ihnd, ihex⟩ := ih (x :: seen)
      simp only [dedupFirstAux, if_neg hx]
      constructor
      · refine List.nodup_cons.mpr ⟨?_, ihnd⟩
        intro hmem
        exact ihex x hmem (List.mem_cons_self _ _)
      · intro y hy
        rcases List.mem_cons.mp hy with h | h
        · subst h; exact hx
        · intro hc
          exact ihex y h (List.mem_cons_of_mem _ hc)

theorem normalizeCustomerIds_nodup (l : List String) : (normalizeCustomerIds l).Nodup :=
  (dedupFirstAux_spec _ []).1

theorem affCustomerFold (fetch : String → Option (List AffRow)) :
    ∀ (ids : List String) (acc : List AffRow × Nat × Nat),
      ids.foldl
        (fun (acc : List AffRow × Nat × Nat) cid =>
          match fetch cid with
          | some got => (acc.1 ++ got, acc.2.1 + 1, acc.2.2)
          | none => (acc.1, acc.2.1, acc.2.2 + 1))
        acc =
      (acc.1 ++ (ids.map (fun cid => (fetch cid).getD [])).flatten,
        acc.2.1 + ids.countP (fun cid => (fetch cid).isSome),
        acc.2.2 + ids.countP (fun cid => (fetch cid).isNone)) := by
  intro ids
  induction ids with
  | nil => intro acc; simp
  | cons cid ids ih =>
    intro acc
    rw [List.foldl_cons, ih]
    cases hf : fetch cid with
    | some got =>
      simp only [Prod.mk.injEq]
      refine ⟨?_, ?_, ?_⟩
      · simp [hf, List.append_assoc]
      · simp [hf, List.countP_cons]
        omega
      · simp [hf, List.countP_cons]
    | none =>
      simp only [Prod.mk.injEq]
      refine ⟨?_, ?_, ?_⟩
      · simp [hf]
      · simp [hf, List.countP_cons]
      · simp [hf, List.countP_cons]
        omega

theorem countP_isSome_isNone (fetch : String → Option (List AffRow)) (ids : List String) :
    ids.countP (fun cid => (fetch cid).isSome) +
      ids.countP (fun cid => (fetch cid).isNone) = ids.length := by
  induction ids with
  | nil => rfl
  | cons cid ids ih =>
    cases hf : fetch cid <;> simp [List.countP_cons, hf] <;> omega

/-- Claim C10: `fetchAffiliatesForCustomers` uppercases, drops empties and
deduplicates the input ids; `totalCustomers` is the number of distinct
resulting ids, `succeeded + failed = totalCustomers`, and the returned
items are exactly the concatenated rows of the customers whose fetch
succeeded (a failed customer contributes nothing and does not disturb the
rows of the others). -/
theorem C10_per_customer_fetch (input : List String)
    (fetch : String → Option (List AffRow)) :
    (fetchAffiliatesForCustomers input fetch).2.totalCustomers =
      (normalizeCustomerIds input).length ∧
    (normalizeCustomerIds input).Nodup ∧
    (fetchAffiliatesForCustomers input fetch).2.succeeded =
      (normalizeCustomerIds input).countP (fun cid => (fetch cid).isSome) ∧
    (fetchAffiliatesForCustomers input fetch).2.failed =
      (normalizeCustomerIds input).countP (fun cid => (fetch cid).isNone) ∧
    (fetchAffiliatesForCustomers input fetch).2.succeeded +
      (fetchAffiliatesForCustomers input fetch).2.failed =
      (fetchAffiliatesForCustomers input fetch).2.totalCustomers ∧
    (fetchAffiliatesForCustomers input fetch).1 =
      ((normalizeCustomerIds input).map (fun cid => (fetch cid).getD [])).flatten := by
  have hf := affCustomerFold fetch (normalizeCustomerIds input) ([], 0, 0)
  have key : fetchAffiliatesForCustomers input fetch =
      (((normalizeCustomerIds input).map (fun cid => (fetch cid).getD [])).flatten,
        ⟨(normalizeCustomerIds input).length,
          (normalizeCustomerIds input).countP (fun cid => (fetch cid).isSome),
          (normalizeCustomerIds input).countP (fun cid => (fetch cid).isNone)⟩) := by
    simp only [fetchAffiliatesForCustomers]
    rw [hf]
    simp
  refine ⟨by rw [key], normalizeCustomerIds_nodup input, by rw [key], by rw [key], ?_, by rw [key]⟩
  rw [key]
  exact countP_isSome_isNone fetch (normalizeCustomerIds input)

/-! ### Claim C5 -/

theorem jsSet_mem_of_mem {κ ν : Type} [DecidableEq κ] (m : List (κ × ν)) (k : κ) (v : ν) :
    ∀ p ∈ jsSet m k v, p ∈ m ∨ p = (k, v) := by
  induction m with
  | nil =>
    intro p hp
    simp [jsSet] at hp
    simp [hp]
  | cons q rest ih =>
    obtain ⟨k1, v1⟩ := q
    intro p hp
    by_cases h1 : k1 = k
    · subst h1
      simp only [jsSet, if_pos rfl] at hp
      rcases List.mem_cons.mp hp with h | h
      · exact Or.inr h
      · exact Or.inl (List.mem_cons_of_mem _ h)
    · simp only [jsSet, if_neg h1] at hp
      rcases List.mem_cons.mp hp with h | h
      · exact Or.inl (by simp [h])
      · rcases ih p h with h2 | h2
        · exact Or.inl (List.mem_cons_of_mem _ h2)
        · exact Or.inr h2

theorem affDedupStep_invalid (acc : List (String × AffAccount)) (rec : AffAccount)
    (hv : validAff rec = false) : affDedupStep acc rec = acc := by
  rcases ht : rec.Trader_ID with _ | t0
  · simp [affDedupStep, ht]
  · rcases hn : rec.Account_Name with _ | n
    · simp [affDedupStep, ht, hn]
    · have hd : t0 = "" ∨ n = "" := by
        by_contra hc
        push_neg at hc
        simp [validAff, truthyStr, ht, hn, hc.1, hc.2] at hv
      simp only [affDedupStep, ht, hn]
      rw [if_pos hd]

theorem affDedupStep_valid (acc : List (String × AffAccount)) (rec : AffAccount)
    (t0 n : String) (ht : rec.Trader_ID = some t0) (hn : rec.Account_Name = some n)
    (hne : ¬(t0 = "" ∨ n = "")) :
    affDedupStep acc rec =
      (match jsGet acc t0 with
       | none => jsSet acc t0 rec
       | some prev =>
         if numOr0 rec.Rev_Number > numOr0 prev.Rev_Number then jsSet acc t0 rec else acc) := by
  simp only [affDedupStep, ht, hn]
  rw [if_neg hne]

theorem affDedupInv_step (processed : List AffAccount) (acc : List (String × AffAccount))
    (rec : AffAccount) (h : AffDedupInv processed acc) :
    AffDedupInv (processed ++ [rec]) (affDedupStep acc rec) := by
  obtain ⟨hnd, hkeys, hsome, hnone⟩ := h
  by_cases hv : validAff rec = true
  case neg =>
    have hv2 : validAff rec = false := by simpa using hv
    rw [affDedupStep_invalid acc rec hv2]
    refine ⟨hnd, hkeys, ?_, ?_⟩
    · intro t rec' hget
      obtain ⟨hmem, hva, htr, hbound⟩ := hsome t rec' hget
      refine ⟨List.mem_append_left _ hmem, hva, htr, ?_⟩
      intro r hr hva' htr'
      rcases List.mem_append.mp hr with h1 | h1
      · exact hbound r h1 hva' htr'
      · have he : r = rec := by simpa using h1
        subst he
        exact absurd hva' (by simp [hv2])
    · intro t hget r hr hva' htr'
      rcases List.mem_append.mp hr with h1 | h1
      · exact hnone t hget r h1 hva' htr'
      · have he : r = rec := by simpa using h1
        subst he
        exact absurd hva' (by simp [hv2])
  case pos =>
    obtain ⟨t0, ht⟩ : ∃ t0, rec.Trader_ID = some t0 := by
      cases h0 : rec.Trader_ID
      · simp [validAff, truthyStr, h0] at hv
      · exact ⟨_, rfl⟩
    obtain ⟨n, hn⟩ : ∃ n, rec.Account_Name = some n := by
      cases h0 : rec.Account_Name
      · simp [validAff, truthyStr, h0] at hv
      · exact ⟨_, rfl⟩
    have hne : ¬(t0 = "" ∨ n = "") := by
      rintro (h0 | h0) <;> subst h0 <;> simp [validAff, truthyStr, ht, hn] at hv
    rw [affDedupStep_valid acc rec t0 n ht hn hne]
    cases hget0 : jsGet acc t0 with
    | none =>
      show AffDedupInv (processed ++ [rec]) (jsSet acc t0 rec)
      refine ⟨jsKeys_jsSet_nodup acc t0 rec hnd, ?_, ?_, ?_⟩
      · intro p hp
        rcases jsSet_mem_of_mem acc t0 rec p hp with h1 | h1
        · exact hkeys p h1
        · subst h1; exact ht
      · intro t rec' hget
        by_cases hteq : t = t0
        · subst hteq
          rw [jsGet_jsSet_self] at hget
          have hrec : rec' = rec := by injection hget with h0; exact h0.symm
          refine ⟨hrec ▸ List.mem_append_right _ (by simp), hrec ▸ hv, hrec ▸ ht, ?_⟩
          intro r hr hva htr
          rcases List.mem_append.mp hr with h1 | h1
          · exact absurd htr (hnone t hget0 r h1 hva)
          · have he : r = rec := by simpa using h1
            rw [he, hrec]
        · rw [jsGet_jsSet_ne acc t0 t rec (fun he => hteq he.symm)] at hget
          obtain ⟨hmem, hva, htr, hbound⟩ := hsome t rec' hget
          refine ⟨List.mem_append_left _ hmem, hva, htr, ?_⟩
          intro r hr hva' htr'
          rcases List.mem_append.mp hr with h1 | h1
          · exact hbound r h1 hva' htr'
          · have he : r = rec := by simpa using h1
            rw [he, ht] at htr'
            have h0 : t0 = t := by injection htr'
            exact absurd h0.symm hteq
      · intro t hget r hr hva htr
        by_cases hteq : t = t0
        · subst hteq
          rw [jsGet_jsSet_self] at hget
          cases hget
        · rw [jsGet_jsSet_ne acc t0 t rec (fun he => hteq he.symm)] at hget
          rcases List.mem_append.mp hr with h1 | h1
          · exact hnone t hget r h1 hva htr
          · have he : r = rec := by simpa using h1
            rw [he, ht] at htr
            have h0 : t0 = t := by injection htr
            exact hteq h0.symm
    | some prev =>
      show AffDedupInv (processed ++ [rec])
        (if numOr0 rec.Rev_Number > numOr0 prev.Rev_Number then jsSet acc t0 rec else acc)
      obtain ⟨hpmem, hpva, hptr, hpbound⟩ := hsome t0 prev hget0
      by_cases hgt : numOr0 rec.Rev_Number > numOr0 prev.Rev_Number
      · rw [if_pos hgt]
        refine ⟨jsKeys_jsSet_nodup acc t0 rec hnd, ?_, ?_, ?_⟩
        · intro p hp
          rcases jsSet_mem_of_mem acc t0 rec p hp with h1 | h1
          · exact hkeys p h1
          · subst h1; exact ht
        · intro t rec' hget
          by_cases hteq : t = t0
          · subst hteq
            rw [jsGet_jsSet_self] at hget
            have hrec : rec' = rec := by injection hget with h0; exact h0.symm
            refine ⟨hrec ▸ List.mem_append_right _ (by simp), hrec ▸ hv, hrec ▸ ht, ?_⟩
            intro r hr hva htr
            rcases List.mem_append.mp hr with h1 | h1
            · rw [hrec]
              exact le_of_lt (lt_of_le_of_lt (hpbound r h1 hva htr) hgt)
            · have he : r = rec := by simpa using h1
              rw [he, hrec]
          · rw [jsGet_jsSet_ne acc t0 t rec (fun he => hteq he.symm)] at hget
            obtain ⟨hmem, hva, htr, hbound⟩ := hsome t rec' hget
            refine ⟨List.mem_append_left _ hmem, hva, htr, ?_⟩
            intro r hr hva' htr'
            rcases List.mem_append.mp hr with h1 | h1
            · exact hbound r h1 hva' htr'
            · have he : r = rec := by simpa using h1
              rw [he, ht] at htr'
              have h0 : t0 = t := by injection htr'
              exact absurd h0.symm hteq
        · intro t hget r hr hva htr
          by_cases hteq : t = t0
          · subst hteq
            rw [jsGet_jsSet_self] at hget
            cases hget
          · rw [jsGet_jsSet_ne acc t0 t rec (fun he => hteq he.symm)] at hget
            rcases List.mem_append.mp hr with h1 | h1
            · exact hnone t hget r h1 hva htr
            · have he : r = rec := by simpa using h1
              rw [he, ht] at htr
              have h0 : t0 = t := by injection htr
              exact hteq h0.symm
      · rw [if_neg hgt]
        push_neg at hgt
        refine ⟨hnd, hkeys, ?_, ?_⟩
        · intro t rec' hget
          obtain ⟨hmem, hva, htr, hbound⟩ := hsome t rec' hget
          refine ⟨List.mem_append_left _ hmem, hva, htr, ?_⟩
          intro r hr hva' htr'
          rcases List.mem_append.mp hr with h1 | h1
          · exact hbound r h1 hva' htr'
          · have he : r = rec := by simpa using h1
            rw [he, ht] at htr'
            have h0 : t0 = t := by injection htr'
            have hpe : rec' = prev := by
              have h2 : jsGet acc t0 = some rec' := by rw [h0]; exact hget
              rw [hget0] at h2
              injection h2 with h3
              exact h3.symm
            rw [he, hpe]
            exact hgt
        · intro t hget r hr hva htr
          rcases List.mem_append.mp hr with h1 | h1
          · exact hnone t hget r h1 hva htr
          · have he : r = rec := by simpa using h1
            rw [he, ht] at htr
            have h0 : t0 = t := by injection htr
            rw [← h0, hget0] at hget
            cases hget

theorem affDedupInv_fold (recs : List AffAccount) :
    ∀ (processed : List AffAccount) (acc : List (String × AffAccount)),
      AffDedupInv processed acc →
      AffDedupInv (processed ++ recs) (recs.foldl affDedupStep acc) := by
  induction recs with
  | nil => intro processed acc h; simpa using h
  | cons rec recs ih =>
    intro processed acc h
    rw [List.foldl_cons]
    have h2 := ih (processed ++ [rec]) (affDedupStep acc rec) (affDedupInv_step processed acc rec h)
    simpa [List.append_assoc] using h2

theorem dedupAffByTrader_inv (recs : List AffAccount) :
    AffDedupInv recs (dedupAffByTrader recs) := by
  have h0 : AffDedupInv [] [] := by
    refine ⟨by simp, by simp, ?_, ?_⟩
    · intro t rec hget
      simp [jsGet] at hget
    · intro t _ r hr
      simp at hr
  simpa [dedupAffByTrader] using affDedupInv_fold recs [] [] h0

theorem count_values_le_one (acc : List (String × AffAccount))
    (hnd : (acc.map Prod.fst).Nodup) (hkeys : ∀ p ∈ acc, p.2.Trader_ID = some p.1)
    (t : String) :
    (acc.map Prod.snd).countP (fun r => decide (r.Trader_ID = some t)) ≤ 1 := by
  induction acc with
  | nil => simp
  | cons p rest ih =>
    rw [List.map_cons, List.countP_cons]
    rw [List.map_cons] at hnd
    have hnd2 := List.nodup_cons.mp hnd
    have hkey_p := hkeys p (List.mem_cons_self _ _)
    by_cases hp : p.2.Trader_ID = some t
    · have hpt : p.1 = t := by
        rw [hkey_p] at hp
        injection hp
      have hz : (rest.map Prod.snd).countP (fun r => decide (r.Trader_ID = some t)) = 0 := by
        rw [List.countP_eq_zero]
        intro r hr
        obtain ⟨q, hq, hq2⟩ := List.mem_map.mp hr
        simp only [decide_eq_true_eq]
        intro hc
        have hqk := hkeys q (List.mem_cons_of_mem _ hq)
        rw [hq2] at hqk
        rw [hqk] at hc
        have hqt : q.1 = t := by injection hc
        exact hnd2.1 (by rw [← hpt] at hqt; rw [← hqt]; exact List.mem_map_of_mem Prod.fst hq)
      rw [hz]
      simp [hp]
    · simp only [hp, decide_eq_true_eq, if_neg hp, decide_eq_false hp]
      simpa using ih hnd2.2 (fun q hq => hkeys q (List.mem_cons_of_mem _ hq))

/-- Claim C5: the dedup-by-`Trader_ID` map of `upsertAffiliates` keeps, for
each trader id, at most one record; a kept record is one of the input
records, and its coerced revision dominates that of every valid input
record with the same trader id (so with revisions 5 and 7, the revision-7
record survives in either arrival order); every valid input trader id is
represented. -/
theorem C5_dedup_highest_revision (recs : List AffAccount) (t : String) :
    (∀ rec, jsGet (dedupAffByTrader recs) t = some rec →
      rec ∈ recs ∧ validAff rec = true ∧ rec.Trader_ID = some t ∧
      ∀ r ∈ recs, validAff r = true → r.Trader_ID = some t →
        numOr0 r.Rev_Number ≤ numOr0 rec.Rev_Number) ∧
    ((dedupAffByTrader recs).map Prod.snd).countP
      (fun r => decide (r.Trader_ID = some t)) ≤ 1 ∧
    (∀ r ∈ recs, validAff r = true → r.Trader_ID = some t →
      (jsGet (dedupAffByTrader recs) t).isSome = true) := by
  obtain ⟨hnd, hkeys, hsome, hnone⟩ := dedupAffByTrader_inv recs
  refine ⟨fun rec hget => hsome t rec hget, count_values_le_one _ hnd hkeys t, ?_⟩
  intro r hr hva htr
  cases hget : jsGet (dedupAffByTrader recs) t with
  | none => exact absurd htr (hnone t hget r hr hva)
  | some rec => simp

/-- Witness for C5: two records sharing `Trader_ID` "T1" with revisions 5
and 7 — the revision-7 record is the survivor, in both arrival orders, and
it dominates every same-trader record. -/
theorem C5_dedup_highest_revision_witness :
    (affRec7 ∈ [affRec5, affRec7] ∧ validAff affRec7 = true ∧
      affRec7.Trader_ID = some "T1" ∧
      ∀ r ∈ [affRec5, affRec7], validAff r = true → r.Trader_ID = some "T1" →
        numOr0 r.Rev_Number ≤ numOr0 affRec7.Rev_Number) ∧
    jsGet (dedupAffByTrader [affRec5, affRec7]) "T1" = some affRec7 ∧
    jsGet (dedupAffByTrader [affRec7, affRec5]) "T1" = some affRec7 :=
  ⟨(C5_dedup_highest_revision [affRec5, affRec7] "T1").1 affRec7 (by decide),
    by decide, by decide⟩

/-! ### Claim C1 -/

/-- Claim C1 counterexample: when both primary fetch attempts answer 401,
the run re-authenticates once and retries once, but the terminal stage is
`fetch:http` (the generic non-2xx check), not `fetch:reauth` as claimed. -/
theorem C1_counterexample :
    (runJobOnce envBoth401).1 = .ok (.failed "fetch:http" "Unauthorized") ∧
    (runJobOnce envBoth401).2.reauths = 1 ∧
    (runJobOnce envBoth401).2.primaryFetches = 2 ∧
    "fetch:http" ≠ "fetch:reauth" :=
  ⟨rfl, rfl, rfl, by decide⟩

/-- Claim C1 (amended): a 401 on the primary fetch triggers exactly one
re-authentication and exactly one fetch retry; when the retried fetch also
answers 401, the run ends at stage `fetch:http` (stage `fetch:reauth` is
reserved for a thrown network error during the retried fetch). -/
theorem C1_reauth_once_then_http (env : RunEnv) (st1 st2 : String)
    (its1 its2 : List GxRow)
    (hs : env.hasSession = true)
    (ha : env.auth 0 = .ok ())
    (h0 : env.primary 0 = .resp 401 st1 its1)
    (h1 : env.primary 1 = .resp 401 st2 its2) :
    (runJobOnce env).2.reauths = 1 ∧
    (runJobOnce env).2.primaryFetches = 2 ∧
    (runJobOnce env).1 = .ok (.failed "fetch:http" st2) := by
  have hsess : ensureSessionM env = .ok 0 := by simp [ensureSessionM, hs]
  have key : runJobOnce env = (.ok (.failed "fetch:http" st2), ⟨0 + 1, 1, 2, 0⟩) := by
    simp only [runJobOnce, hsess, h0, true_or, if_true, ha, h1, runWithResp]
    rw [if_pos (Or.inr (by norm_num : (401 : Int) ≥ 300))]
  rw [key]
  exact ⟨rfl, rfl, rfl⟩

/-- Witness for C1 on the concrete both-401 environment. -/
theorem C1_reauth_once_then_http_witness :
    (runJobOnce envBoth401).2.reauths = 1 ∧
    (runJobOnce envBoth401).2.primaryFetches = 2 ∧
    (runJobOnce envBoth401).1 = .ok (.failed "fetch:http" "Unauthorized") :=
  C1_reauth_once_then_http envBoth401 "Unauthorized" "Unauthorized" [] [] rfl rfl rfl rfl

/-! ### Claim C2 -/

theorem fetchAff_two_errors (oracle : Nat → Except String AffResp) (e0 e1 : String)
    (h0 : oracle 0 = .error e0) (h1 : oracle 1 = .error e1) (minRev : Int)
    (hmin : 0 ≤ minRev) :
    fetchAffiliatesSinceM minRev 1 oracle = (.error e1, 2) := by
  unfold fetchAffiliatesSinceM
  rw [if_neg (by omega)]
  unfold affAttemptLoop
  rw [h0]
  unfold affAttemptLoop
  rw [h1]

theorem fetchAff_ok_first (oracle : Nat → Except String AffResp) (r : AffResp)
    (h0 : oracle 0 = .ok r) (minRev : Int) (hmin : 0 ≤ minRev) :
    fetchAffiliatesSinceM minRev 1 oracle = (.ok r, 1) := by
  unfold fetchAffiliatesSinceM
  rw [if_neg (by omega)]
  unfold affAttemptLoop
  rw [h0]

theorem runJobOnce_2xx (env : RunEnv) (s : Int) (st : String) (its : List GxRow)
    (hs : env.hasSession = true) (h0 : env.primary 0 = .resp s st its)
    (hlo : 200 ≤ s) (hhi : s < 300) :
    runJobOnce env = runPipeline env
      (parseSinceRevOverride env.fetchAll env.fetchSinceRev env.maxZohoRev)
      ⟨0, 0, 1, 0⟩ its := by
  have hsess : ensureSessionM env = .ok 0 := by simp [ensureSessionM, hs]
  simp only [runJobOnce, hsess, h0]
  rw [if_neg (by omega : ¬(s = 401 ∨ s = 403))]
  unfold runWithResp
  rw [if_neg (by omega : ¬(s < 200 ∨ s ≥ 300))]

theorem runPipeline_aff_throw (env : RunEnv) (sinceRev : Int) (tr : RunTrace)
    (fullItems : List GxRow)
    (hne : (if env.devLimit > 0 then fullItems.take env.devLimit else fullItems) ≠ [])
    (hmin : 0 ≤ affFetchMinRev sinceRev
      (cardHolderRevNums (if env.devLimit > 0 then fullItems.take env.devLimit else fullItems)))
    (e0 e1 : String) (ha0 : env.affFetch 0 = .error e0) (ha1 : env.affFetch 1 = .error e1) :
    runPipeline env sinceRev tr fullItems = (.error e1, { tr with affAttempts := 2 }) := by
  have hempty : (if env.devLimit > 0 then fullItems.take env.devLimit else fullItems).isEmpty
      = false := by
    cases hcase : (if env.devLimit > 0 then fullItems.take env.devLimit else fullItems) with
    | nil => exact absurd hcase hne
    | cons a l => rfl
  have hfetch := fetchAff_two_errors env.affFetch e0 e1 ha0 ha1 _ hmin
  simp [runPipeline, hempty, hfetch]

theorem runPipeline_aff_http (env : RunEnv) (sinceRev : Int) (tr : RunTrace)
    (fullItems : List GxRow)
    (hne : (if env.devLimit > 0 then fullItems.take env.devLimit else fullItems) ≠ [])
    (hmin : 0 ≤ affFetchMinRev sinceRev
      (cardHolderRevNums (if env.devLimit > 0 then fullItems.take env.devLimit else fullItems)))
    (r : AffResp) (ha0 : env.affFetch 0 = .ok r)
    (hbad : ¬(200 ≤ r.status ∧ r.status < 300)) :
    runPipeline env sinceRev tr fullItems =
      (.ok (.done (if env.devLimit > 0 then fullItems.take env.devLimit else fullItems).length
        (upsertAccounts (if env.devLimit > 0 then fullItems.take env.devLimit else fullItems)
          [] env.acctUpsert).success
        (upsertAccounts (if env.devLimit > 0 then fullItems.take env.devLimit else fullItems)
          [] env.acctUpsert).failed
        0 0 0),
       { tr with affAttempts := 1 }) := by
  have hempty : (if env.devLimit > 0 then fullItems.take env.devLimit else fullItems).isEmpty
      = false := by
    cases hcase : (if env.devLimit > 0 then fullItems.take env.devLimit else fullItems) with
    | nil => exact absurd hcase hne
    | cons a l => rfl
  have hfetch := fetchAff_ok_first env.affFetch r ha0 _ hmin
  have hallAff : (if 200 ≤ r.status ∧ r.status < 300 then r.items else []) = [] :=
    if_neg hbad
  simp [runPipeline, hempty, hfetch, hallAff, buildAffiliateMaps, buildLinkMap,
    upsertAffiliates, dedupAffByTrader, relevantAffiliates]

/-- Claim C2 (amended): the secondary fetch is attempted once and retried
once on a thrown error; a non-2xx HTTP response is treated as zero
secondary records and the run still completes as a successful run; but
when both attempts throw at the network level, the error propagates
uncaught and the run aborts with stage `fatal` — a secondary network
failure can abort the run. -/
theorem C2_secondary_fetch_best_effort (env : RunEnv) (s : Int) (st : String)
    (its : List GxRow)
    (hs : env.hasSession = true)
    (h0 : env.primary 0 = .resp s st its)
    (hlo : 200 ≤ s) (hhi : s < 300)
    (hne : (if env.devLimit > 0 then its.take env.devLimit else its) ≠ [])
    (hmin : 0 ≤ affFetchMinRev (parseSinceRevOverride env.fetchAll env.fetchSinceRev env.maxZohoRev)
      (cardHolderRevNums (if env.devLimit > 0 then its.take env.devLimit else its))) :
    (∀ e0 e1, env.affFetch 0 = .error e0 → env.affFetch 1 = .error e1 →
      (jobRun env).1 = .failed "fatal" e1 ∧ (jobRun env).2.affAttempts = 2) ∧
    (∀ r, env.affFetch 0 = .ok r → ¬(200 ≤ r.status ∧ r.status < 300) →
      (∃ su fa, (jobRun env).1 =
        .done (if env.devLimit > 0 then its.take env.devLimit else its).length su fa 0 0 0) ∧
      (jobRun env).2.affAttempts = 1) := by
  have hrun := runJobOnce_2xx env s st its hs h0 hlo hhi
  constructor
  · intro e0 e1 ha0 ha1
    have hp := runPipeline_aff_throw env
      (parseSinceRevOverride env.fetchAll env.fetchSinceRev env.maxZohoRev)
      ⟨0, 0, 1, 0⟩ its hne hmin e0 e1 ha0 ha1
    constructor
    · simp [jobRun, hrun, hp]
    · simp [jobRun, hrun, hp]
  · intro r ha0 hbad
    have hp := runPipeline_aff_http env
      (parseSinceRevOverride env.fetchAll env.fetchSinceRev env.maxZohoRev)
      ⟨0, 0, 1, 0⟩ its hne hmin r ha0 hbad
    have hres1 : (jobRun env).1 =
        .done (if env.devLimit > 0 then its.take env.devLimit else its).length
          (upsertAccounts (if env.devLimit > 0 then its.take env.devLimit else its) []
            env.acctUpsert).success
          (upsertAccounts (if env.devLimit > 0 then its.take env.devLimit else its) []
            env.acctUpsert).failed 0 0 0 := by
      simp [jobRun, hrun, hp]
    have hres2 : (jobRun env).2.affAttempts = 1 := by
      simp [jobRun, hrun, hp]
    exact ⟨⟨_, _, hres1⟩, hres2⟩

/-- Claim C2 counterexample: the primary fetch succeeds with one item, both
affiliate fetch attempts throw a network error; the run does not complete
successfully — it aborts with stage `fatal`. -/
theorem C2_counterexample :
    (jobRun envAffNetFail).1 = .failed "fatal" "connect ETIMEDOUT" ∧
    (jobRun envAffNetFail).2.affAttempts = 2 :=
  ⟨rfl, rfl⟩

/-- Witness for C2: the network-failure scenario aborts at `fatal`; the
HTTP-500 scenario completes as a successful run with zero affiliates after
one attempt. -/
theorem C2_secondary_fetch_best_effort_witness :
    (jobRun envAffNetFail).1 = .failed "fatal" "connect ETIMEDOUT" ∧
    (∃ su fa, (jobRun envAffHttp500).1 = .done 1 su fa 0 0 0) ∧
    (jobRun envAffHttp500).2.affAttempts = 1 :=
  ⟨((C2_secondary_fetch_best_effort envAffNetFail 200 "OK" [gxPlainItem] rfl rfl
      (by decide) (by decide) (by decide) (by decide)).1
      "connect ETIMEDOUT" "connect ETIMEDOUT" rfl rfl).1,
    ((C2_secondary_fetch_best_effort envAffHttp500 200 "OK" [gxPlainItem] rfl rfl
      (by decide) (by decide) (by decide) (by decide)).2
      ⟨500, []⟩ rfl (by decide)).1,
    ((C2_secondary_fetch_best_effort envAffHttp500 200 "OK" [gxPlainItem] rfl rfl
      (by decide) (by decide) (by decide) (by decide)).2
      ⟨500, []⟩ rfl (by decide)).2⟩

/-! ### Claim C4 -/

theorem getElem?_tail_succ {α : Type} (l : List α) (i : Nat) : l.tail[i]? = l[i + 1]? := by
  cases l <;> simp

theorem head?_eq_getElem?_zero {α : Type} (l : List α) : l.head? = l[0]? := by
  cases l <;> simp

theorem affTallyRows_pairs (rows : List RowRes) :
    ∀ (group : List AffAccount) (t zid : String),
      (t, zid) ∈ (affTallyRows rows group).2.2.1 →
      ∃ (i : Nat) (action : String), rows[i]? = some (RowRes.success action (some zid)) ∧
        (group[i]?.bind (fun a : AffAccount => a.Trader_ID)) = some t := by
  induction rows with
  | nil =>
    intro group t zid h
    simp [affTallyRows] at h
  | cons r rs ih =>
    intro group t zid h
    cases r with
    | success action id =>
      cases id with
      | none =>
        have h2 : (t, zid) ∈ (affTallyRows rs group.tail).2.2.1 := by
          simpa [affTallyRows] using h
        obtain ⟨i, action2, hi, hg⟩ := ih group.tail t zid h2
        refine ⟨i + 1, action2, by simpa using hi, ?_⟩
        rw [← getElem?_tail_succ]
        exact hg
      | some zid0 =>
        cases hgrp : group.head?.bind (fun a : AffAccount => a.Trader_ID) with
        | none =>
          have h2 : (t, zid) ∈ (affTallyRows rs group.tail).2.2.1 := by
            simpa [affTallyRows, hgrp] using h
          obtain ⟨i, action2, hi, hg⟩ := ih group.tail t zid h2
          refine ⟨i + 1, action2, by simpa using hi, ?_⟩
          rw [← getElem?_tail_succ]
          exact hg
        | some t0 =>
          have h2 : (t, zid) = (t0, zid0) ∨ (t, zid) ∈ (affTallyRows rs group.tail).2.2.1 := by
            simpa [affTallyRows, hgrp] using h
          rcases h2 with he | h2
          · rw [Prod.mk.injEq] at he
            obtain ⟨ht, hz⟩ := he
            refine ⟨0, action, by simp [hz], ?_⟩
            rw [← head?_eq_getElem?_zero, hgrp, ht]
          · obtain ⟨i, action2, hi, hg⟩ := ih group.tail t zid h2
            refine ⟨i + 1, action2, by simpa using hi, ?_⟩
            rw [← getElem?_tail_succ]
            exact hg
    | failure code msg =>
      have h2 : (t, zid) ∈ (affTallyRows rs group.tail).2.2.1 := by
        simpa [affTallyRows] using h
      obtain ⟨i, action2, hi, hg⟩ := ih group.tail t zid h2
      refine ⟨i + 1, action2, by simpa using hi, ?_⟩
      rw [← getElem?_tail_succ]
      exact hg

theorem affChunkTally_pairs (g : List AffAccount) (resp : ZohoCallResp) (t zid : String)
    (h : (t, zid) ∈ (affChunkTally g resp).2.2.1) :
    resp.status = 200 ∧ ∃ rows, resp.body = some rows ∧
      ∃ (i : Nat) (action : String), rows[i]? = some (RowRes.success action (some zid)) ∧
        (g[i]?.bind (fun a : AffAccount => a.Trader_ID)) = some t := by
  obtain ⟨s, b⟩ := resp
  cases b with
  | none => simp [affChunkTally] at h
  | some rows =>
    by_cases hst : s = 200
    · subst hst
      refine ⟨rfl, rows, rfl, ?_⟩
      have h2 : (t, zid) ∈ (affTallyRows rows g).2.2.1 := by
        simpa [affChunkTally] using h
      exact affTallyRows_pairs rows g t zid h2
    · simp [affChunkTally, hst] at h

theorem affRunGroups_pairs (zoho : Nat → ZohoCallResp) (gs : List (List AffAccount)) :
    ∀ (gi : Nat) (t zid : String),
      (t, zid) ∈ (affRunGroups zoho gi gs).2.2.1 →
      ∃ j g, gs[j]? = some g ∧ (t, zid) ∈ (affChunkTally g (zoho (gi + j))).2.2.1 := by
  induction gs with
  | nil =>
    intro gi t zid h
    simp [affRunGroups] at h
  | cons g gs ih =>
    intro gi t zid h
    have h2 : (t, zid) ∈ (affChunkTally g (zoho gi)).2.2.1 ∨
        (t, zid) ∈ (affRunGroups zoho (gi + 1) gs).2.2.1 := by
      simpa [affRunGroups] using h
    rcases h2 with h2 | h2
    · exact ⟨0, g, by simp, by simpa using h2⟩
    · obtain ⟨j, g2, hj, hmem⟩ := ih (gi + 1) t zid h2
      refine ⟨j + 1, g2, by simpa using hj, ?_⟩
      have harith : gi + 1 + j = gi + (j + 1) := by omega
      rw [← harith]
      exact hmem

theorem upsertAffiliates_idMap (affRows : List AffRow) (zoho : Nat → ZohoCallResp)
    (t zid : String)
    (h : jsGet (upsertAffiliates affRows zoho).idByTraderId t = some zid) :
    ∃ (j : Nat) (g : List AffAccount) (rows : List RowRes) (i : Nat) (action : String),
      (sliceChunks AFFILIATES_BATCH_SIZE
        ((dedupAffByTrader (affRows.map mapAffToZohoAccount)).map Prod.snd))[j]? = some g ∧
      (zoho j).status = 200 ∧ (zoho j).body = some rows ∧
      rows[i]? = some (RowRes.success action (some zid)) ∧
      (g[i]?.bind (fun a : AffAccount => a.Trader_ID)) = some t := by
  by_cases hmt : ((dedupAffByTrader (affRows.map mapAffToZohoAccount)).map Prod.snd).isEmpty
  · rw [show (upsertAffiliates affRows zoho).idByTraderId = [] from by
      simp [upsertAffiliates, hmt]] at h
    simp [jsGet] at h
  · have hid : (upsertAffiliates affRows zoho).idByTraderId =
        jsSetAll [] ((affRunGroups zoho 0 (sliceChunks AFFILIATES_BATCH_SIZE
          ((dedupAffByTrader (affRows.map mapAffToZohoAccount)).map Prod.snd))).2.2.1) := by
      simp [upsertAffiliates, hmt]
    rw [hid] at h
    rcases jsGet_jsSetAll_mem _ _ t zid h with hmem | hnone
    · obtain ⟨j, g, hj, hmem2⟩ := affRunGroups_pairs zoho _ 0 t zid hmem
      obtain ⟨hst, rows, hbody, i, action, hrow, hg⟩ :=
        affChunkTally_pairs g (zoho (0 + j)) t zid hmem2
      rw [Nat.zero_add] at hst hbody
      exact ⟨j, g, rows, i, action, hj, hst, hbody, hrow, hg⟩
    · simp [jsGet] at hnone

theorem buildLinkMap_fold (idMap : List (String × String)) (ps : List (Int × AffLinkEntry)) :
    ∀ (acc : List (Int × String)) (rv : Int) (zid : String),
      jsGet (ps.foldl (fun acc p =>
        match jsGet idMap p.2.affTraderId with
        | some zid => jsSet acc p.1 zid
        | none => acc) acc) rv = some zid →
      (∃ e, (rv, e) ∈ ps ∧ jsGet idMap e.affTraderId = some zid) ∨
        jsGet acc rv = some zid := by
  induction ps with
  | nil => intro acc rv zid h; exact Or.inr h
  | cons p ps ih =>
    intro acc rv zid h
    rw [List.foldl_cons] at h
    rcases ih _ rv zid h with hl | hr
    · obtain ⟨e, he, hg⟩ := hl
      exact Or.inl ⟨e, List.mem_cons_of_mem _ he, hg⟩
    · cases hq : jsGet idMap p.2.affTraderId with
      | some z =>
        simp only [hq] at hr
        by_cases hk : p.1 = rv
        · subst hk
          rw [jsGet_jsSet_self] at hr
          injection hr with hz
          refine Or.inl ⟨p.2, by simp, ?_⟩
          rw [hq, hz]
        · rw [jsGet_jsSet_ne _ _ _ _ hk] at hr
          exact Or.inr hr
      | none =>
        simp only [hq] at hr
        exact Or.inr hr

theorem buildLinkMap_spec (m1 : List (Int × AffLinkEntry)) (idMap : List (String × String))
    (rv : Int) (zid : String)
    (h : jsGet (buildLinkMap m1 idMap) rv = some zid) :
    ∃ e, (rv, e) ∈ m1 ∧ jsGet idMap e.affTraderId = some zid := by
  rcases buildLinkMap_fold idMap m1 [] rv zid (by simpa [buildLinkMap] using h) with hl | hr
  · exact hl
  · simp [jsGet] at hr

theorem mapGalaxy_affiliate_none (gx : GxRow) :
    (mapGalaxyToZohoAccount gx).Affiliate_To = none := rfl

theorem attachAffiliate_rev (lm : List (Int × String)) (m : ZohoAccount) :
    (attachAffiliate lm m).Rev_Number = m.Rev_Number := by
  rcases hrv : m.Rev_Number with _ | rv
  · simp [attachAffiliate, hrv]
  · by_cases h : rv = 0
    · simp [attachAffiliate, hrv, h]
    · cases hq : jsGet lm rv with
      | some z => simp [attachAffiliate, hrv, h, hq]
      | none => simp [attachAffiliate, hrv, h, hq]

theorem attachAffiliate_some (lm : List (Int × String)) (m : ZohoAccount) (zid : String)
    (h0 : m.Affiliate_To = none)
    (h : (attachAffiliate lm m).Affiliate_To = some zid) :
    ∃ rv, m.Rev_Number = some rv ∧ rv ≠ 0 ∧ jsGet lm rv = some zid := by
  rcases hrv : m.Rev_Number with _ | rv
  · rw [show attachAffiliate lm m = m from by simp [attachAffiliate, hrv]] at h
    rw [h0] at h
    cases h
  · by_cases hz : rv = 0
    · rw [show attachAffiliate lm m = m from by simp [attachAffiliate, hrv, hz]] at h
      rw [h0] at h
      cases h
    · cases hq : jsGet lm rv with
      | none =>
        rw [show attachAffiliate lm m = m from by simp [attachAffiliate, hrv, hz, hq]] at h
        rw [h0] at h
        cases h
      | some z =>
        have hat : (attachAffiliate lm m).Affiliate_To = some z := by
          simp [attachAffiliate, hrv, hz, hq]
        rw [hat] at h
        injection h with he
        refine ⟨rv, rfl, hz, ?_⟩
        rw [hq, he]

theorem attachAffiliate_no_match (lm : List (Int × String)) (m : ZohoAccount) (rv : Int)
    (hrv : m.Rev_Number = some rv) (hq : jsGet lm rv = none) :
    attachAffiliate lm m = m := by
  by_cases hz : rv = 0
  · simp [attachAffiliate, hrv, hz]
  · simp [attachAffiliate, hrv, hz, hq]

theorem attachAffiliate_none_rev (lm : List (Int × String)) (m : ZohoAccount)
    (h : m.Rev_Number = none) : attachAffiliate lm m = m := by
  simp [attachAffiliate, h]

/-- Claim C4: in the submitted customer payload, a record carries an
`Affiliate_To` id only if its own `Rev_Number` is a non-zero correlation
key present in the revision→affiliate map and the affiliate with that
trader id upserted successfully — i.e. some 200 response row at the
matching index is a success carrying that id for the record with that
`Trader_ID`; a record whose correlation key has no entry in the link map,
or which has no revision at all, carries no link field. -/
theorem C4_link_only_on_upsert_success (allAff : List AffRow) (batchRevs : List Int)
    (items : List GxRow) (zohoAff : Nat → ZohoCallResp) :
    ∀ m ∈ (mappedAccounts items
      (buildLinkMap (buildAffiliateMaps allAff).affRevToAffTrader
        (upsertAffiliates (relevantAffiliates allAff batchRevs) zohoAff).idByTraderId)).mapped,
      (∀ zid, m.Affiliate_To = some zid →
        ∃ rv entry, m.Rev_Number = some rv ∧ rv ≠ 0 ∧
          (rv, entry) ∈ (buildAffiliateMaps allAff).affRevToAffTrader ∧
          jsGet (upsertAffiliates (relevantAffiliates allAff batchRevs) zohoAff).idByTraderId
            entry.affTraderId = some zid ∧
          ∃ (j : Nat) (g : List AffAccount) (rows : List RowRes) (i : Nat) (action : String),
            (sliceChunks AFFILIATES_BATCH_SIZE
              ((dedupAffByTrader ((relevantAffiliates allAff batchRevs).map
                mapAffToZohoAccount)).map Prod.snd))[j]? = some g ∧
            (zohoAff j).status = 200 ∧ (zohoAff j).body = some rows ∧
            rows[i]? = some (RowRes.success action (some zid)) ∧
            (g[i]?.bind (fun a : AffAccount => a.Trader_ID)) = some entry.affTraderId) ∧
      (∀ rv, m.Rev_Number = some rv →
        jsGet (buildLinkMap (buildAffiliateMaps allAff).affRevToAffTrader
          (upsertAffiliates (relevantAffiliates allAff batchRevs) zohoAff).idByTraderId) rv
          = none →
        m.Affiliate_To = none) ∧
      (m.Rev_Number = none → m.Affiliate_To = none) := by
  intro m hm
  rw [mappedAccounts_mapped] at hm
  obtain ⟨gx, hgx, rfl⟩ := List.mem_map.mp hm
  refine ⟨?_, ?_, ?_⟩
  · intro zid hz
    obtain ⟨rv, hrv, hrv0, hlk⟩ :=
      attachAffiliate_some _ _ zid (mapGalaxy_affiliate_none gx) hz
    obtain ⟨entry, hent, hid⟩ := buildLinkMap_spec _ _ rv zid hlk
    obtain ⟨j, g, rows, i, action, hj, hst, hbody, hrow, hg⟩ :=
      upsertAffiliates_idMap (relevantAffiliates allAff batchRevs) zohoAff
        entry.affTraderId zid hid
    refine ⟨rv, entry, ?_, hrv0, hent, hid, j, g, rows, i, action, hj, hst, hbody, hrow, hg⟩
    rw [attachAffiliate_rev]
    exact hrv
  · intro rv hrv hnone
    have hrv2 : (mapGalaxyToZohoAccount gx).Rev_Number = some rv := by
      rw [← attachAffiliate_rev (buildLinkMap (buildAffiliateMaps allAff).affRevToAffTrader
        (upsertAffiliates (relevantAffiliates allAff batchRevs) zohoAff).idByTraderId)
        (mapGalaxyToZohoAccount gx)]
      exact hrv
    rw [attachAffiliate_no_match _ _ rv hrv2 hnone]
    exact mapGalaxy_affiliate_none gx
  · intro hrv
    have hrv2 : (mapGalaxyToZohoAccount gx).Rev_Number = none := by
      rw [← attachAffiliate_rev (buildLinkMap (buildAffiliateMaps allAff).affRevToAffTrader
        (upsertAffiliates (relevantAffiliates allAff batchRevs) zohoAff).idByTraderId)
        (mapGalaxyToZohoAccount gx)]
      exact hrv
    rw [attachAffiliate_none_rev _ _ hrv2]
    exact mapGalaxy_affiliate_none gx

/-- Witness for C4: one affiliate (trader T1, revision 7) upserted with
Zoho id Z9 and a customer at revision 7 — the linked payload record traces
back to the successful upsert row. -/
theorem C4_link_only_on_upsert_success_witness :
    ∃ rv entry,
      (attachAffiliate (buildLinkMap (buildAffiliateMaps [affRowC4]).affRevToAffTrader
          (upsertAffiliates (relevantAffiliates [affRowC4] [7]) zohoAffC4).idByTraderId)
        (mapGalaxyToZohoAccount gxLinkedC4)).Rev_Number = some rv ∧ rv ≠ 0 ∧
      (rv, entry) ∈ (buildAffiliateMaps [affRowC4]).affRevToAffTrader ∧
      jsGet (upsertAffiliates (relevantAffiliates [affRowC4] [7]) zohoAffC4).idByTraderId
        entry.affTraderId = some "Z9" ∧
      ∃ (j : Nat) (g : List AffAccount) (rows : List RowRes) (i : Nat) (action : String),
        (sliceChunks AFFILIATES_BATCH_SIZE
          ((dedupAffByTrader ((relevantAffiliates [affRowC4] [7]).map
            mapAffToZohoAccount)).map Prod.snd))[j]? = some g ∧
        (zohoAffC4 j).status = 200 ∧ (zohoAffC4 j).body = some rows ∧
        rows[i]? = some (RowRes.success action (some "Z9")) ∧
        (g[i]?.bind (fun a : AffAccount => a.Trader_ID)) = some entry.affTraderId :=
  (C4_link_only_on_upsert_success [affRowC4] [7] [gxLinkedC4] zohoAffC4
    (attachAffiliate (buildLinkMap (buildAffiliateMaps [affRowC4]).affRevToAffTrader
        (upsertAffiliates (relevantAffiliates [affRowC4] [7]) zohoAffC4).idByTraderId)
      (mapGalaxyToZohoAccount gxLinkedC4))
    (by decide)).1 "Z9" (by decide)

end ErpSync
